import Mathlib

/-!
Shallow embedding of the arbitrage core of the Polymarket-Bot repository:
cost model (src/utils/cost_calculator.py), opportunity detectors
(src/arbitrage/binary_arb.py, src/arbitrage/categorical_arb.py), order
executor (src/execution/executor.py), token merger (src/execution/merger.py)
and the websocket book/subscription logic (src/clients/websocket_client.py).
Python floats are modelled as rationals; statuses are the literal strings the
code uses.
-/

namespace PolyBot

/-! ## Cost calculator (src/utils/cost_calculator.py) -/

/-- Breakdown of all costs for a trade (`TradeCosts`). -/
structure TradeCosts where
  clob_fee : ℚ
  merge_gas : ℚ
  swap_spread : ℚ
  buffer : ℚ
  total : ℚ
  deriving Repr, DecidableEq

/-- Complete analysis of an arbitrage opportunity (`ArbitrageAnalysis`). -/
structure ArbitrageAnalysis where
  gross_edge : ℚ
  costs : TradeCosts
  net_edge : ℚ
  net_edge_bps : ℚ
  is_profitable : Bool
  potential_profit : ℚ
  deriving Repr, DecidableEq

/-- Calculator for arbitrage costs and profitability (`CostCalculator.__init__`
fields; the bps fields are Python ints, gas is a float). -/
structure CostCalculator where
  taker_fee_bps : ℚ
  maker_fee_bps : ℚ
  merge_gas_usd : ℚ
  swap_spread_bps : ℚ
  safety_buffer_bps : ℚ
  deriving Repr, DecidableEq

/-- Defaults from `CostCalculator.__init__`. -/
def CostCalculator.default : CostCalculator :=
  { taker_fee_bps := 20
    maker_fee_bps := 0
    merge_gas_usd := 2/100
    swap_spread_bps := 5
    safety_buffer_bps := 10 }

/-- `CostCalculator.calculate_binary_arb`. -/
def CostCalculator.calculate_binary_arb (c : CostCalculator)
    (yes_ask no_ask position_size : ℚ) (use_maker : Bool) : ArbitrageAnalysis :=
  let combined_cost := yes_ask + no_ask
  let gross_edge := 1 - combined_cost
  let fee_bps := if use_maker then c.maker_fee_bps else c.taker_fee_bps
  let clob_fee := (fee_bps / 10000) * 2
  let merge_gas := c.merge_gas_usd / position_size
  let swap_spread := c.swap_spread_bps / 10000
  let buffer := c.safety_buffer_bps / 10000
  let total_costs := clob_fee + merge_gas + swap_spread + buffer
  let net_edge := gross_edge - total_costs
  { gross_edge := gross_edge
    costs := { clob_fee := clob_fee, merge_gas := merge_gas,
               swap_spread := swap_spread, buffer := buffer, total := total_costs }
    net_edge := net_edge
    net_edge_bps := net_edge * 10000
    is_profitable := decide (net_edge > 0)
    potential_profit := net_edge * position_size }

/-- `CostCalculator.calculate_categorical_arb`. -/
def CostCalculator.calculate_categorical_arb (c : CostCalculator)
    (outcome_asks : List ℚ) (position_size : ℚ) (use_maker : Bool) : ArbitrageAnalysis :=
  let num_outcomes : ℚ := outcome_asks.length
  let combined_cost := outcome_asks.sum
  let gross_edge := 1 - combined_cost
  let fee_bps := if use_maker then c.maker_fee_bps else c.taker_fee_bps
  let clob_fee := (fee_bps / 10000) * num_outcomes
  let merge_gas := c.merge_gas_usd / position_size
  let swap_spread := c.swap_spread_bps / 10000
  let buffer := c.safety_buffer_bps / 10000
  let categorical_buffer := buffer * num_outcomes
  let total_costs := clob_fee + merge_gas + swap_spread + categorical_buffer
  let net_edge := gross_edge - total_costs
  { gross_edge := gross_edge
    costs := { clob_fee := clob_fee, merge_gas := merge_gas,
               swap_spread := swap_spread, buffer := categorical_buffer, total := total_costs }
    net_edge := net_edge
    net_edge_bps := net_edge * 10000
    is_profitable := decide (net_edge > 0)
    potential_profit := net_edge * position_size }

/-- `CostCalculator.minimum_edge_for_profit` (note `num_outcomes / 2` is Python
float division of the outcome count by two). -/
def CostCalculator.minimum_edge_for_profit (c : CostCalculator)
    (position_size : ℚ) (num_outcomes : ℕ) (use_maker : Bool) : ℚ :=
  let fee_bps := if use_maker then c.maker_fee_bps else c.taker_fee_bps
  let clob_fee := (fee_bps / 10000) * (num_outcomes : ℚ)
  let merge_gas := c.merge_gas_usd / position_size
  let swap_spread := c.swap_spread_bps / 10000
  let buffer := (c.safety_buffer_bps / 10000) * ((num_outcomes : ℚ) / 2)
  clob_fee + merge_gas + swap_spread + buffer

/-! ## Order book state (src/clients/websocket_client.py) -/

/-- Single level in the order book (`OrderBookLevel`). -/
structure OrderBookLevel where
  price : ℚ
  size : ℚ
  deriving Repr, DecidableEq

/-- Order book state for a market (`OrderBook`). -/
structure OrderBook where
  asset_id : String
  market_id : String
  bids : List OrderBookLevel := []
  asks : List OrderBookLevel := []
  timestamp : ℚ := 0
  deriving Repr, DecidableEq

/-- `OrderBook.best_bid`: `max(level.price for level in self.bids)` when bids
are nonempty, else `None`. -/
def OrderBook.best_bid (b : OrderBook) : Option ℚ :=
  match b.bids.map OrderBookLevel.price with
  | [] => none
  | p :: ps => some (ps.foldl max p)

/-- `OrderBook.best_ask`: `min(level.price for level in self.asks)` when asks
are nonempty, else `None`. -/
def OrderBook.best_ask (b : OrderBook) : Option ℚ :=
  match b.asks.map OrderBookLevel.price with
  | [] => none
  | p :: ps => some (ps.foldl min p)

/-- `WebSocketClient._update_book_level`: scan for the first level whose price
is within `0.0001` of the target; size 0 removes it, a nonzero size replaces
its size; with no match, a positive size appends a fresh level. -/
def update_book_level (levels : List OrderBookLevel) (price size : ℚ) :
    List OrderBookLevel :=
  match levels with
  | [] => if size > 0 then [{ price := price, size := size }] else []
  | l :: ls =>
    if |l.price - price| < 1/10000 then
      if size = 0 then ls else { l with size := size } :: ls
    else
      l :: update_book_level ls price size

/-! ## Subscription management (src/clients/websocket_client.py) -/

/-- One subscribe control frame. `initial` marks the `{"type": "market"}`
framing (first batch); otherwise `{"operation": "subscribe"}`. -/
structure SubMessage where
  assets_ids : List String
  initial : Bool
  deriving Repr, DecidableEq

/-- Batches of at most 100 assets, mirroring
`for i in range(0, len(assets), batch_size): batch = assets[i:i+batch_size]`. -/
def batches100 (assets : List String) : List (List String) :=
  match assets with
  | [] => []
  | a :: rest => (a :: rest).take 100 :: batches100 ((a :: rest).drop 100)
termination_by assets.length
decreasing_by
  simp only [List.length_drop, List.length_cons]
  omega

/-- `WebSocketClient._resubscribe`: snapshot the subscribed set, clear it, send
one subscribe frame per batch of 100 (first batch in initial framing), adding
each batch back to the subscribed set. Returns the frames sent and the stored
subscription list afterwards. The subscribed set is modelled as the list of
its elements in iteration order. -/
def resubscribe (subscribed_assets : List String) : List SubMessage × List String :=
  let assets := subscribed_assets
  let msgs := (batches100 assets).enum.map
    (fun bi => { assets_ids := bi.2, initial := bi.1 = 0 : SubMessage })
  (msgs, (batches100 assets).flatten)

/-- `WebSocketClient.connect`, restricted to its resubscription effect: after a
successful reconnect it calls `_resubscribe` iff the subscribed set is
nonempty. -/
def connect_resubscribe (subscribed_assets : List String) :
    List SubMessage × List String :=
  if subscribed_assets.isEmpty then ([], subscribed_assets)
  else resubscribe subscribed_assets

/-! ## Market metadata (src/clients/gamma_client.py) -/

/-- Python's `str.lower()`: lowercase the characters (what Lean's
`String.toLower` computes, stated at the character level so it evaluates). -/
def py_lower (s : String) : String := String.mk (s.data.map Char.toLower)

/-- Token (outcome) information (`Token`). -/
structure Token where
  token_id : String
  outcome : String
  price : ℚ := 0
  deriving Repr, DecidableEq

/-- Market information (`Market`). -/
structure Market where
  condition_id : String
  question_id : String
  question : String
  tokens : List Token := []
  active : Bool := true
  closed : Bool := false
  deriving Repr, DecidableEq

/-- `Market.is_binary`. -/
def Market.is_binary (m : Market) : Bool := m.tokens.length = 2

/-- `Market.is_categorical`. -/
def Market.is_categorical (m : Market) : Bool := m.tokens.length > 2

/-- `Market.get_yes_token`: first token whose outcome lowercases to "yes",
else the first token, else `None`. -/
def Market.get_yes_token (m : Market) : Option Token :=
  match m.tokens.find? (fun t => py_lower t.outcome = "yes") with
  | some t => some t
  | none => m.tokens.head?

/-- `Market.get_no_token`: first token whose outcome lowercases to "no",
else the second token, else `None`. -/
def Market.get_no_token (m : Market) : Option Token :=
  match m.tokens.find? (fun t => py_lower t.outcome = "no") with
  | some t => some t
  | none => m.tokens.get? 1

/-! ## Binary detector (src/arbitrage/binary_arb.py) -/

/-- Detected binary arbitrage opportunity (`BinaryArbitrageOpportunity`,
without the wall-clock timestamp). -/
structure BinaryArbitrageOpportunity where
  market : Market
  yes_token_id : String
  no_token_id : String
  yes_ask : ℚ
  no_ask : ℚ
  yes_ask_size : ℚ
  no_ask_size : ℚ
  analysis : ArbitrageAnalysis
  max_size : ℚ
  deriving Repr, DecidableEq

/-- Detector configuration (`BinaryArbitrageDetector.__init__`). -/
structure BinaryArbitrageDetector where
  cost_calculator : CostCalculator
  min_edge_bps : ℚ := 50
  min_size : ℚ := 1
  max_size : ℚ := 100
  deriving Repr, DecidableEq

/-- `_get_size_at_price` (shared by both detectors): total size over levels
whose price is within `tolerance = 0.0001` of the target. -/
def get_size_at_price (levels : List OrderBookLevel) (target_price : ℚ) : ℚ :=
  (levels.map (fun l => if |l.price - target_price| < 1/10000 then l.size else 0)).sum

/-- `BinaryArbitrageDetector.check_opportunity`. -/
def BinaryArbitrageDetector.check_opportunity (d : BinaryArbitrageDetector)
    (market : Market) (yes_book no_book : Option OrderBook) :
    Option BinaryArbitrageOpportunity :=
  if ¬ market.is_binary then none
  else match yes_book, no_book with
  | some yb, some nb =>
    match yb.best_ask, nb.best_ask with
    | some yes_ask, some no_ask =>
      let yes_ask_size := get_size_at_price yb.asks yes_ask
      let no_ask_size := get_size_at_price nb.asks no_ask
      if yes_ask_size ≤ 0 ∨ no_ask_size ≤ 0 then none
      else
        let max_size := min (min (yes_ask_size * yes_ask) (no_ask_size * no_ask)) d.max_size
        if max_size < d.min_size then none
        else
          let analysis := d.cost_calculator.calculate_binary_arb yes_ask no_ask max_size false
          if ¬ analysis.is_profitable ∨ analysis.net_edge_bps < d.min_edge_bps then none
          else match market.get_yes_token, market.get_no_token with
          | some yes_token, some no_token =>
            some { market := market
                   yes_token_id := yes_token.token_id
                   no_token_id := no_token.token_id
                   yes_ask := yes_ask, no_ask := no_ask
                   yes_ask_size := yes_ask_size, no_ask_size := no_ask_size
                   analysis := analysis, max_size := max_size }
          | _, _ => none
    | _, _ => none
  | _, _ => none

/-! ## Categorical detector (src/arbitrage/categorical_arb.py) -/

/-- Data for a single outcome in categorical arb (`OutcomeData`). -/
structure OutcomeData where
  token : Token
  ask_price : ℚ
  ask_size : ℚ
  order_book : OrderBook
  deriving Repr, DecidableEq

/-- Detected categorical arbitrage opportunity
(`CategoricalArbitrageOpportunity`, without the wall-clock timestamp). -/
structure CategoricalArbitrageOpportunity where
  market : Market
  outcomes : List OutcomeData
  total_cost : ℚ
  analysis : ArbitrageAnalysis
  max_size : ℚ
  limiting_outcome : String
  deriving Repr, DecidableEq

/-- Detector configuration (`CategoricalArbitrageDetector.__init__`). -/
structure CategoricalArbitrageDetector where
  cost_calculator : CostCalculator
  min_edge_bps : ℚ := 100
  min_size : ℚ := 5
  max_size : ℚ := 50
  max_outcomes : ℕ := 10
  deriving Repr, DecidableEq

/-- The outcome-gathering loop of
`CategoricalArbitrageDetector.check_opportunity`: for each token in order,
look up its book, take its best ask and the size at that ask, aborting
(`return None`) on a missing book, an undefined ask or a non-positive size;
accumulates the outcome list and `total_ask_cost`. -/
def gather_outcomes (order_books : String → Option OrderBook) :
    List Token → Option (List OutcomeData × ℚ)
  | [] => some ([], 0)
  | token :: rest =>
    match order_books token.token_id with
    | none => none
    | some book =>
      match book.best_ask with
      | none => none
      | some ask =>
        let ask_size := get_size_at_price book.asks ask
        if ask_size ≤ 0 then none
        else
          match gather_outcomes order_books rest with
          | none => none
          | some (os, total) =>
            some ({ token := token, ask_price := ask, ask_size := ask_size,
                    order_book := book } :: os, ask + total)

/-- One iteration of the limiting-outcome loop: keep the running minimum of
`ask_size * ask_price` (`float('inf')` modelled by `none`) and the outcome
label of the first strict minimiser. -/
def limit_step (acc : Option ℚ × String) (o : OutcomeData) : Option ℚ × String :=
  let usdc_value := o.ask_size * o.ask_price
  match acc.1 with
  | none => (some usdc_value, o.token.outcome)
  | some m => if usdc_value < m then (some usdc_value, o.token.outcome) else acc

/-- The limiting-outcome loop of `check_opportunity`. -/
def limiting_fold (outcomes : List OutcomeData) : Option ℚ × String :=
  outcomes.foldl limit_step (none, "")

/-- `CategoricalArbitrageDetector.check_opportunity`, instrumented: the cost
model is passed as an argument and the second component counts how many times
it is invoked (the call-count test double of the spec). -/
def CategoricalArbitrageDetector.check_opportunity_core
    (d : CategoricalArbitrageDetector)
    (costFn : List ℚ → ℚ → Bool → ArbitrageAnalysis)
    (market : Market) (order_books : String → Option OrderBook) :
    Option CategoricalArbitrageOpportunity × ℕ :=
  if ¬ market.is_categorical then (none, 0)
  else if market.tokens.length > d.max_outcomes then (none, 0)
  else match gather_outcomes order_books market.tokens with
  | none => (none, 0)
  | some (outcomes, total_ask_cost) =>
    if total_ask_cost ≥ 1 then (none, 0)
    else
      let lim := limiting_fold outcomes
      let limiting_outcome := lim.2
      let max_size := match lim.1 with
        | none => d.max_size
        | some m => min m d.max_size
      if max_size < d.min_size then (none, 0)
      else
        let outcome_asks := outcomes.map OutcomeData.ask_price
        let analysis := costFn outcome_asks max_size false
        if ¬ analysis.is_profitable ∨ analysis.net_edge_bps < d.min_edge_bps then (none, 1)
        else
          (some { market := market, outcomes := outcomes,
                  total_cost := total_ask_cost, analysis := analysis,
                  max_size := max_size, limiting_outcome := limiting_outcome }, 1)

/-- `CategoricalArbitrageDetector.check_opportunity` proper: the instrumented
version run with the real cost model. -/
def CategoricalArbitrageDetector.check_opportunity
    (d : CategoricalArbitrageDetector) (market : Market)
    (order_books : String → Option OrderBook) :
    Option CategoricalArbitrageOpportunity :=
  (d.check_opportunity_core (d.cost_calculator.calculate_categorical_arb)
    market order_books).1

/-! ## Order executor (src/execution/executor.py)

The executor's async I/O is modelled by explicit environments: the per-leg
order placement results, the final order status each leg shows when the fill
monitoring loop ends (its last poll), and which cancel calls succeed.
Wall-clock fields (`start_time`, `end_time`) are omitted. -/

/-- `OrderSide` (src/clients/clob_client.py). -/
inductive OrderSide
  | buy
  | sell
  deriving Repr, DecidableEq

/-- `TradeState` enum. -/
inductive TradeState
  | pending
  | placing_orders
  | monitoring_fills
  | partially_filled
  | fully_filled
  | merging
  | completed
  | failed
  | cancelled
  deriving Repr, DecidableEq

/-- The enum's string `.value`. -/
def TradeState.value : TradeState → String
  | .pending => "pending"
  | .placing_orders => "placing_orders"
  | .monitoring_fills => "monitoring_fills"
  | .partially_filled => "partially_filled"
  | .fully_filled => "fully_filled"
  | .merging => "merging"
  | .completed => "completed"
  | .failed => "failed"
  | .cancelled => "cancelled"

/-- Single leg of an arbitrage trade (`OrderLeg`). -/
structure OrderLeg where
  token_id : String
  side : OrderSide
  size : ℚ
  price : ℚ
  order_id : Option String := none
  status : String := "pending"
  filled_size : ℚ := 0
  filled_price : Option ℚ := none
  deriving Repr, DecidableEq

/-- Tagged union of the two opportunity kinds
(`ArbitrageOpportunity = Union[...]`). -/
inductive ArbitrageOpportunity
  | binary (o : BinaryArbitrageOpportunity)
  | categorical (o : CategoricalArbitrageOpportunity)
  deriving Repr, DecidableEq

/-- The market behind an opportunity. -/
def ArbitrageOpportunity.market : ArbitrageOpportunity → Market
  | .binary o => o.market
  | .categorical o => o.market

/-- Complete arbitrage trade with all legs (`ArbitrageTrade`, without the
wall-clock timing fields). -/
structure ArbitrageTrade where
  trade_id : String
  opportunity : ArbitrageOpportunity
  legs : List OrderLeg
  state : TradeState := .pending
  expected_profit : ℚ := 0
  actual_profit : Option ℚ := none
  error : Option String := none
  deriving Repr, DecidableEq

/-- `ArbitrageTrade.all_filled`: every leg filled to at least 99% of its
requested size. -/
def ArbitrageTrade.all_filled_legs (legs : List OrderLeg) : Bool :=
  legs.all (fun leg => leg.filled_size ≥ leg.size * (99/100))

/-- `OrderResult` (src/clients/clob_client.py), as returned per leg by
`place_orders_parallel`. -/
structure OrderResult where
  success : Bool
  order_id : Option String := none
  status : String := ""
  error : Option String := none
  deriving Repr, DecidableEq

/-- `OrderStatus` (src/clients/clob_client.py), as returned by `get_order`. -/
structure OrderStatusR where
  status : String
  size_matched : ℚ
  avg_price : Option ℚ := none
  deriving Repr, DecidableEq

/-- Executor configuration (`OrderExecutor.__init__`; the timeout and poll
interval only pace the monitoring loop and are not modelled). -/
structure OrderExecutor where
  max_concurrent_trades : ℕ := 5
  deriving Repr, DecidableEq

/-- `OrderExecutor._create_trade` (the uuid is passed in). -/
def create_trade (trade_id : String) (opportunity : ArbitrageOpportunity) :
    ArbitrageTrade :=
  match opportunity with
  | .binary o =>
    { trade_id := trade_id, opportunity := opportunity
      legs := [
        { token_id := o.yes_token_id, side := .buy,
          size := o.max_size / o.yes_ask, price := o.yes_ask },
        { token_id := o.no_token_id, side := .buy,
          size := o.max_size / o.no_ask, price := o.no_ask }]
      expected_profit := o.analysis.potential_profit }
  | .categorical o =>
    { trade_id := trade_id, opportunity := opportunity
      legs := o.outcomes.map (fun oc =>
        { token_id := oc.token.token_id, side := .buy,
          size := o.max_size / oc.ask_price, price := oc.ask_price })
      expected_profit := o.analysis.potential_profit }

/-- The leg update of `_place_orders`: `zip(trade.legs, results)` copies each
result's order id and status onto its leg (unzipped tails untouched). -/
def apply_place_results : List OrderLeg → List OrderResult → List OrderLeg
  | leg :: ls, r :: rs =>
    { leg with order_id := r.order_id, status := r.status } ::
      apply_place_results ls rs
  | ls, [] => ls
  | [], _ => []

/-- `_place_orders`' success count over the zipped pairs. -/
def place_success_count (legs : List OrderLeg) (results : List OrderResult) : ℕ :=
  ((results.take legs.length).filter (fun r => r.success)).length

/-- Net effect of `_monitor_fills` on the legs: each leg with an order id and
a non-terminal status takes the status, matched size and average price of its
last poll (`finals i`); a `None` query response leaves the leg unchanged. -/
def monitor_fills_go (finals : ℕ → Option OrderStatusR) :
    ℕ → List OrderLeg → List OrderLeg
  | _, [] => []
  | i, leg :: rest =>
    (if leg.order_id.isNone then leg
     else if leg.status = "MATCHED" ∨ leg.status = "FILLED" then leg
     else match finals i with
       | none => leg
       | some st =>
         { leg with
           status := st.status
           filled_size := st.size_matched
           filled_price := st.avg_price }) :: monitor_fills_go finals (i + 1) rest

/-- Net effect of `_monitor_fills` on the legs (see `monitor_fills_go`),
polling from leg index 0. -/
def monitor_fills (finals : ℕ → Option OrderStatusR) (legs : List OrderLeg) :
    List OrderLeg :=
  monitor_fills_go finals 0 legs

/-- `OrderExecutor._cancel_trade_orders`: for every leg holding an order id
with status "LIVE", issue a cancel call; on success the leg's status becomes
"CANCELLED" (a failing cancel is logged and the leg left as is). Returns the
updated legs and the order ids for which cancel was called, in leg order. -/
def cancel_trade_orders (cancelOk : String → Bool) :
    List OrderLeg → List OrderLeg × List String
  | [] => ([], [])
  | leg :: rest =>
    let tail := cancel_trade_orders cancelOk rest
    match leg.order_id with
    | some oid =>
      if leg.status = "LIVE" then
        if cancelOk oid then
          ({ leg with status := "CANCELLED" } :: tail.1, oid :: tail.2)
        else (leg :: tail.1, oid :: tail.2)
      else (leg :: tail.1, tail.2)
    | none => (leg :: tail.1, tail.2)

/-- What one `execute_arbitrage` call did: the returned trade, the active-trade
id set after the call, the order tuples sent to `place_orders_parallel`, and
the cancel calls issued. -/
structure ExecOutcome where
  trade : ArbitrageTrade
  active_after : List String
  placed_orders : List (String × OrderSide × ℚ × ℚ)
  cancel_calls : List String
  deriving Repr, DecidableEq

/-- `OrderExecutor.execute_arbitrage`. Capacity rejection returns a failed
trade without registering it or placing orders; otherwise the trade is
registered, orders placed (a short placement cancels what was placed, raises,
and the raise is caught re-marking the trade failed and cancelling again),
fills monitored, and the all-filled check routes to `FULLY_FILLED` or to
`_handle_partial_fill` (cancel still-live legs, mark failed). The `finally`
block always removes the trade from the active set again. -/
def execute_arbitrage (ex : OrderExecutor) (active_trades : List String)
    (trade_id : String) (opportunity : ArbitrageOpportunity)
    (place_results : List OrderResult) (finals : ℕ → Option OrderStatusR)
    (cancelOk : String → Bool) : ExecOutcome :=
  if active_trades.length ≥ ex.max_concurrent_trades then
    let trade := create_trade trade_id opportunity
    { trade := { trade with
                 state := .failed
                 error := some "Max concurrent trades reached" }
      active_after := active_trades, placed_orders := [], cancel_calls := [] }
  else
    let trade := create_trade trade_id opportunity
    let orders := trade.legs.map (fun leg => (leg.token_id, leg.side, leg.size, leg.price))
    let legs1 := apply_place_results trade.legs place_results
    let succ := place_success_count trade.legs place_results
    let n := trade.legs.length
    if succ < n then
      let errMsg := s!"Only {succ}/{n} orders placed"
      let c1 := cancel_trade_orders cancelOk legs1
      let c2 := cancel_trade_orders cancelOk c1.1
      { trade := { trade with legs := c2.1, state := .failed, error := some errMsg }
        active_after := active_trades, placed_orders := orders
        cancel_calls := c1.2 ++ c2.2 }
    else
      let legsM := monitor_fills finals legs1
      if ArbitrageTrade.all_filled_legs legsM then
        { trade := { trade with legs := legsM, state := .fully_filled }
          active_after := active_trades, placed_orders := orders, cancel_calls := [] }
      else
        let c := cancel_trade_orders cancelOk legsM
        { trade := { trade with
                     legs := c.1
                     state := .failed
                     error := some "Partial fill - orders cancelled" }
          active_after := active_trades, placed_orders := orders
          cancel_calls := c.2 }

/-! ## Token merger (src/execution/merger.py) -/

/-- `TransactionResult` (src/clients/polygon_client.py), restricted to the
fields the merger reads. -/
structure TransactionResult where
  success : Bool
  tx_hash : String := ""
  gas_used : ℕ := 0
  gas_cost_usd : ℚ := 0
  error : Option String := none
  deriving Repr, DecidableEq

/-- Result of a token merge operation (`MergeResult`). -/
structure MergeResult where
  success : Bool
  trade_id : String
  tx_hash : String
  gas_used : ℕ
  gas_cost_usd : ℚ
  amount_merged : ℚ
  profit_realized : ℚ
  error : Option String := none
  deriving Repr, DecidableEq

/-- One `merge_positions` call's outcome in the environment: a returned
transaction result, or a raised exception message. -/
inductive MergeAttempt
  | tx (r : TransactionResult)
  | exn (msg : String)
  deriving Repr, DecidableEq

/-- Python string formatting of an `Optional[str]`: `None` prints as "None". -/
def py_opt_str : Option String → String
  | none => "None"
  | some s => s

/-- The exhausted-retries error message of `_execute_merge_with_retry`. -/
def merge_fail_msg (max_retries : ℕ) (last_error : Option String) : String :=
  s!"Merge failed after {max_retries} attempts: {py_opt_str last_error}"

/-- Python `leg.filled_price or leg.price`: falls back on `None` and on a zero
filled price. -/
def filled_price_or (leg : OrderLeg) : ℚ :=
  match leg.filled_price with
  | none => leg.price
  | some p => if p = 0 then leg.price else p

/-- `total_cost = sum(leg.filled_size * (leg.filled_price or leg.price))`. -/
def total_leg_cost (legs : List OrderLeg) : ℚ :=
  (legs.map (fun leg => leg.filled_size * filled_price_or leg)).sum

/-- Merger configuration (`TokenMerger.__init__`). -/
structure TokenMerger where
  min_merge_amount : ℚ := 1
  max_retries : ℕ := 3
  deriving Repr, DecidableEq

/-- The retry loop of `_execute_merge_with_retry`: `remaining` iterations left,
`idx` the current attempt index, threading `last_error`. Returns the final
`MergeResult` and the amount passed to each `merge_positions` call made. -/
def merge_retry_go (max_retries : ℕ) (trade_id : String) (legs : List OrderLeg)
    (amount : ℚ) (env : ℕ → MergeAttempt) :
    ℕ → ℕ → Option String → MergeResult × List ℚ
  | 0, _, last_error =>
    ({ success := false, trade_id := trade_id, tx_hash := "", gas_used := 0,
       gas_cost_usd := 0, amount_merged := 0, profit_realized := 0,
       error := some (merge_fail_msg max_retries last_error) },
     [])
  | remaining + 1, idx, _ =>
    match env idx with
    | .tx r =>
      if r.success then
        ({ success := true, trade_id := trade_id, tx_hash := r.tx_hash,
           gas_used := r.gas_used, gas_cost_usd := r.gas_cost_usd,
           amount_merged := amount,
           profit_realized := amount - total_leg_cost legs - r.gas_cost_usd },
         [amount])
      else
        let rest := merge_retry_go max_retries trade_id legs amount env
          remaining (idx + 1) r.error
        (rest.1, amount :: rest.2)
    | .exn m =>
      let rest := merge_retry_go max_retries trade_id legs amount env
        remaining (idx + 1) (some m)
      (rest.1, amount :: rest.2)

/-- `TokenMerger._execute_merge_with_retry`. -/
def execute_merge_with_retry (m : TokenMerger) (trade_id : String)
    (legs : List OrderLeg) (amount : ℚ) (env : ℕ → MergeAttempt) :
    MergeResult × List ℚ :=
  merge_retry_go m.max_retries trade_id legs amount env m.max_retries 0 none

/-- What one `merge_trade` call did: the returned result, the trade afterwards,
the `_merge_results` history afterwards, and the amounts of the on-chain
`merge_positions` calls made. -/
structure MergeOutcome where
  result : MergeResult
  trade : ArbitrageTrade
  merge_results : List MergeResult
  merge_calls : List ℚ
  deriving Repr, DecidableEq

/-- `TokenMerger.merge_trade`. A non-fully-filled trade is refused untouched;
otherwise the state moves to MERGING, the merge amount is the minimum filled
size across legs (`min()` of an empty sequence raises, modelled as `.error`),
a below-minimum amount returns a failure result leaving state and history as
they are, and otherwise the retry loop runs, its result is appended to the
history and the trade ends COMPLETED or FAILED. -/
def merge_trade (m : TokenMerger) (trade : ArbitrageTrade)
    (env : ℕ → MergeAttempt) (merge_results : List MergeResult) :
    Except String MergeOutcome :=
  if trade.state ≠ .fully_filled then
    let st := trade.state.value
    .ok { result := { success := false, trade_id := trade.trade_id, tx_hash := ""
                      gas_used := 0, gas_cost_usd := 0, amount_merged := 0
                      profit_realized := 0
                      error := some s!"Trade not fully filled: {st}" }
          trade := trade, merge_results := merge_results, merge_calls := [] }
  else
    let trade1 := { trade with state := .merging }
    match trade1.legs.map OrderLeg.filled_size with
    | [] => .error "min() arg is an empty sequence"
    | f :: fs =>
      let merge_amount := fs.foldl min f
      if merge_amount < m.min_merge_amount then
        let lo := m.min_merge_amount
        .ok { result := { success := false, trade_id := trade1.trade_id, tx_hash := ""
                          gas_used := 0, gas_cost_usd := 0, amount_merged := 0
                          profit_realized := 0
                          error := some s!"Merge amount {merge_amount} below minimum {lo}" }
              trade := trade1, merge_results := merge_results, merge_calls := [] }
      else
        let r := execute_merge_with_retry m trade1.trade_id trade1.legs merge_amount env
        if r.1.success then
          .ok { result := r.1
                trade := { trade1 with
                           state := .completed
                           actual_profit := some r.1.profit_realized }
                merge_results := merge_results ++ [r.1], merge_calls := r.2 }
        else
          .ok { result := r.1
                trade := { trade1 with state := .failed, error := r.1.error }
                merge_results := merge_results ++ [r.1], merge_calls := r.2 }

/-- `TokenMerger.get_merge_results` (`self._merge_results[-limit:]`; a zero
limit yields the whole list, as in Python). -/
def get_merge_results (merge_results : List MergeResult) (limit : ℕ := 100) :
    List MergeResult :=
  if limit = 0 then merge_results
  else merge_results.drop (merge_results.length - limit)

/-- The aggregate statistics of `TokenMerger.get_stats` (the empty-history
branch has no `success_rate` key; modelled as 0). -/
structure MergeStats where
  total_merges : ℕ
  successful_merges : ℕ
  failed_merges : ℕ
  total_profit : ℚ
  total_gas_cost : ℚ
  success_rate : ℚ
  deriving Repr, DecidableEq

/-- `TokenMerger.get_stats`. -/
def get_stats (merge_results : List MergeResult) : MergeStats :=
  if merge_results.isEmpty then
    { total_merges := 0, successful_merges := 0, failed_merges := 0
      total_profit := 0, total_gas_cost := 0, success_rate := 0 }
  else
    let successful := merge_results.filter (fun r => r.success)
    let failed := merge_results.filter (fun r => ¬ r.success)
    { total_merges := merge_results.length
      successful_merges := successful.length
      failed_merges := failed.length
      total_profit := (successful.map MergeResult.profit_realized).sum
      total_gas_cost := (successful.map MergeResult.gas_cost_usd).sum
      success_rate := (successful.length : ℚ) / (merge_results.length : ℚ) }

/-! ## Helper predicates and sample fixtures -/

/-- The merge amount `merge_trade` computes: `min(leg.filled_size for leg in
trade.legs)` (0 for the empty list, which `merge_trade` itself treats as a
raised `ValueError`). -/
def merge_amount_of (legs : List OrderLeg) : ℚ :=
  match legs.map OrderLeg.filled_size with
  | [] => 0
  | f :: fs => fs.foldl min f

/-- An on-chain merge attempt that does not succeed (a falsy transaction
result or a raised exception). -/
def attempt_failed : MergeAttempt → Bool
  | .tx r => ! r.success
  | .exn _ => true

/-- The error the retry loop records for a failed attempt
(`last_error = tx_result.error` / `last_error = str(e)`). -/
def attempt_error : MergeAttempt → Option String
  | .tx r => r.error
  | .exn msg => some msg

/-- A token whose leg the categorical gathering loop aborts on: missing order
book, undefined best ask, or non-positive size at the best ask. -/
def leg_bad (order_books : String → Option OrderBook) (t : Token) : Bool :=
  match order_books t.token_id with
  | none => true
  | some book =>
    match book.best_ask with
    | none => true
    | some ask => get_size_at_price book.asks ask ≤ 0

/-- Sample YES book: one ask level at 0.40 with 100 shares. -/
def sampleYesBook : OrderBook :=
  { asset_id := "T-YES", market_id := "M1", asks := [{ price := 2/5, size := 100 }] }

/-- Sample NO book: one ask level at 0.50 with 100 shares. -/
def sampleNoBook : OrderBook :=
  { asset_id := "T-NO", market_id := "M1", asks := [{ price := 1/2, size := 100 }] }

/-- Sample binary market with YES/NO tokens. -/
def sampleBinaryMarket : Market :=
  { condition_id := "M1", question_id := "Q1", question := "sample?"
    tokens := [{ token_id := "T-YES", outcome := "Yes" },
               { token_id := "T-NO", outcome := "No" }] }

/-- Binary detector with default thresholds over the default calculator. -/
def sampleBinaryDetector : BinaryArbitrageDetector :=
  { cost_calculator := CostCalculator.default }

/-- The opportunity the sample binary market yields: `maxSize = 40`, gross
edge 0.10, net edge 0.094. -/
def sampleBinaryOpp : BinaryArbitrageOpportunity :=
  { market := sampleBinaryMarket
    yes_token_id := "T-YES", no_token_id := "T-NO"
    yes_ask := 2/5, no_ask := 1/2
    yes_ask_size := 100, no_ask_size := 100
    analysis :=
      { gross_edge := 1/10
        costs := { clob_fee := 1/250, merge_gas := 1/2000, swap_spread := 1/2000,
                   buffer := 1/1000, total := 3/500 }
        net_edge := 47/500, net_edge_bps := 940, is_profitable := true,
        potential_profit := 94/25 }
    max_size := 40 }

/-- Sample categorical market with three outcomes. -/
def sampleCatMarket : Market :=
  { condition_id := "M2", question_id := "Q2", question := "which?"
    tokens := [{ token_id := "T-A", outcome := "A" },
               { token_id := "T-B", outcome := "B" },
               { token_id := "T-C", outcome := "C" }] }

/-- Books for the categorical sample: asks 0.30/0.30/0.25 with sizes
1000/1000/100. -/
def sampleCatBooks : String → Option OrderBook := fun token_id =>
  if token_id = "T-A" then
    some { asset_id := "T-A", market_id := "M2", asks := [{ price := 3/10, size := 1000 }] }
  else if token_id = "T-B" then
    some { asset_id := "T-B", market_id := "M2", asks := [{ price := 3/10, size := 1000 }] }
  else if token_id = "T-C" then
    some { asset_id := "T-C", market_id := "M2", asks := [{ price := 1/4, size := 100 }] }
  else none

/-- Categorical detector with default thresholds over the default
calculator. -/
def sampleCatDetector : CategoricalArbitrageDetector :=
  { cost_calculator := CostCalculator.default }

/-- The opportunity the categorical sample yields: limited by outcome C's
25 USDC of depth, `maxSize = 25`. -/
def sampleCatOpp : CategoricalArbitrageOpportunity :=
  { market := sampleCatMarket
    outcomes :=
      [{ token := { token_id := "T-A", outcome := "A" }, ask_price := 3/10, ask_size := 1000,
         order_book := { asset_id := "T-A", market_id := "M2"
                         asks := [{ price := 3/10, size := 1000 }] } },
       { token := { token_id := "T-B", outcome := "B" }, ask_price := 3/10, ask_size := 1000,
         order_book := { asset_id := "T-B", market_id := "M2"
                         asks := [{ price := 3/10, size := 1000 }] } },
       { token := { token_id := "T-C", outcome := "C" }, ask_price := 1/4, ask_size := 100,
         order_book := { asset_id := "T-C", market_id := "M2",
                         asks := [{ price := 1/4, size := 100 }] } }]
    total_cost := 17/20
    analysis :=
      { gross_edge := 3/20
        costs := { clob_fee := 3/500, merge_gas := 1/1250, swap_spread := 1/2000,
                   buffer := 3/1000, total := 103/10000 }
        net_edge := 1397/10000, net_edge_bps := 1397, is_profitable := true,
        potential_profit := 1397/400 }
    max_size := 25
    limiting_outcome := "C" }

/-- A book quoting 0.40 x 10 on the ask side, for the quick-reject sample. -/
def sampleExpensiveBook (asset_id : String) : OrderBook :=
  { asset_id := asset_id, market_id := "M2", asks := [{ price := 2/5, size := 10 }] }

/-- Books for all three categorical outcomes at ask 0.40 each: the best asks
sum to 1.2 ≥ 1.0. -/
def sampleExpensiveBooks : String → Option OrderBook := fun token_id =>
  if token_id = "T-A" then some (sampleExpensiveBook "T-A")
  else if token_id = "T-B" then some (sampleExpensiveBook "T-B")
  else if token_id = "T-C" then some (sampleExpensiveBook "T-C")
  else none

/-- Place results for a two-leg trade: both legs placed live. -/
def samplePlaceResults : List OrderResult :=
  [{ success := true, order_id := some "o1", status := "LIVE" },
   { success := true, order_id := some "o2", status := "LIVE" }]

/-- Final monitored statuses: leg 0 fully matched, leg 1 still live at 40%. -/
def samplePartialFinals : ℕ → Option OrderStatusR := fun i =>
  if i = 0 then some { status := "MATCHED", size_matched := 100, avg_price := some (2/5) }
  else if i = 1 then some { status := "LIVE", size_matched := 32, avg_price := some (1/2) }
  else none

/-- A fully-filled trade whose smallest filled leg (0.5 tokens) is below the
default 1.0 minimum merge amount. -/
def sampleLowFillTrade : ArbitrageTrade :=
  { trade_id := "t2", opportunity := .binary sampleBinaryOpp
    legs := [{ token_id := "T-YES", side := .buy, size := 100, price := 2/5,
               order_id := some "o1", status := "MATCHED", filled_size := 1/2,
               filled_price := some (2/5) },
             { token_id := "T-NO", side := .buy, size := 80, price := 1/2,
               order_id := some "o2", status := "MATCHED", filled_size := 3/4,
               filled_price := some (1/2) }]
    state := .fully_filled }

/-- A fully-filled trade large enough to merge: both legs filled to 40
tokens, costing 16 + 20 = 36 USDC. -/
def sampleFilledTrade : ArbitrageTrade :=
  { trade_id := "t3", opportunity := .binary sampleBinaryOpp
    legs := [{ token_id := "T-YES", side := .buy, size := 40, price := 2/5,
               order_id := some "o1", status := "MATCHED", filled_size := 40,
               filled_price := some (2/5) },
             { token_id := "T-NO", side := .buy, size := 40, price := 1/2,
               order_id := some "o2", status := "MATCHED", filled_size := 40,
               filled_price := some (1/2) }]
    state := .fully_filled }

/-! ## Theorems -/

/-- Unfolding lemma: binary profitability flag. -/
theorem calculate_binary_arb_is_profitable (c : CostCalculator)
    (yes_ask no_ask position_size : ℚ) (use_maker : Bool) :
    (c.calculate_binary_arb yes_ask no_ask position_size use_maker).is_profitable =
      decide (1 - (yes_ask + no_ask) -
        (((if use_maker then c.maker_fee_bps else c.taker_fee_bps) / 10000) * 2 +
          c.merge_gas_usd / position_size + c.swap_spread_bps / 10000 +
          c.safety_buffer_bps / 10000) > 0) := rfl

/-- Unfolding lemma: the breakeven edge. -/
theorem minimum_edge_for_profit_eq (c : CostCalculator) (position_size : ℚ)
    (num_outcomes : ℕ) (use_maker : Bool) :
    c.minimum_edge_for_profit position_size num_outcomes use_maker =
      ((if use_maker then c.maker_fee_bps else c.taker_fee_bps) / 10000) * (num_outcomes : ℚ) +
        c.merge_gas_usd / position_size + c.swap_spread_bps / 10000 +
        (c.safety_buffer_bps / 10000) * ((num_outcomes : ℚ) / 2) := rfl

/-- C2: for positive position size and non-negative fee/gas/spread/buffer
parameters, `calculate_binary_arb` reports a profit exactly below the
breakeven line: asks summing below `1 - minimum_edge_for_profit(size, 2,
maker)` are profitable, and asks summing to 1.0 or more never are. -/
theorem c2_binary_edge_invariant (c : CostCalculator)
    (yes_ask no_ask position_size : ℚ) (use_maker : Bool)
    (hsize : 0 < position_size)
    (htaker : 0 ≤ c.taker_fee_bps) (hmaker : 0 ≤ c.maker_fee_bps)
    (hgas : 0 ≤ c.merge_gas_usd) (hspread : 0 ≤ c.swap_spread_bps)
    (hbuf : 0 ≤ c.safety_buffer_bps) :
    (yes_ask + no_ask < 1 - c.minimum_edge_for_profit position_size 2 use_maker →
      (c.calculate_binary_arb yes_ask no_ask position_size use_maker).is_profitable = true) ∧
    (1 ≤ yes_ask + no_ask →
      (c.calculate_binary_arb yes_ask no_ask position_size use_maker).is_profitable = false) := by
  have hfee : 0 ≤ (if use_maker then c.maker_fee_bps else c.taker_fee_bps) := by
    split <;> assumption
  rw [calculate_binary_arb_is_profitable, minimum_edge_for_profit_eq]
  push_cast
  constructor
  · intro h
    rw [decide_eq_true_eq]
    linarith
  · intro h
    rw [decide_eq_false_iff_not]
    intro hpos
    have hgg : 0 ≤ c.merge_gas_usd / position_size := by positivity
    have hf : 0 ≤ (if use_maker then c.maker_fee_bps else c.taker_fee_bps) / 10000 * 2 := by
      positivity
    have hs : 0 ≤ c.swap_spread_bps / 10000 := by positivity
    have hb : 0 ≤ c.safety_buffer_bps / 10000 := by positivity
    linarith

/-- C2 witness: the default calculator at size 50 with asks 0.40/0.50. -/
theorem c2_binary_edge_invariant_witness :
    ((2:ℚ)/5 + 1/2 < 1 - CostCalculator.default.minimum_edge_for_profit 50 2 false →
      (CostCalculator.default.calculate_binary_arb (2/5) (1/2) 50 false).is_profitable = true) ∧
    (0 < (50:ℚ)) ∧
    ((1:ℚ) ≤ 3/5 + 1/2 →
      (CostCalculator.default.calculate_binary_arb (3/5) (1/2) 50 false).is_profitable = false) := by
  refine ⟨(c2_binary_edge_invariant CostCalculator.default (2/5) (1/2) 50 false
    (by norm_num) (by norm_num [CostCalculator.default]) (by norm_num [CostCalculator.default])
    (by norm_num [CostCalculator.default]) (by norm_num [CostCalculator.default])
    (by norm_num [CostCalculator.default])).1, by norm_num,
    (c2_binary_edge_invariant CostCalculator.default (3/5) (1/2) 50 false
    (by norm_num) (by norm_num [CostCalculator.default]) (by norm_num [CostCalculator.default])
    (by norm_num [CostCalculator.default]) (by norm_num [CostCalculator.default])
    (by norm_num [CostCalculator.default])).2⟩

/-- Unfolding lemma: categorical profitability flag. -/
theorem calculate_categorical_arb_is_profitable (c : CostCalculator)
    (outcome_asks : List ℚ) (position_size : ℚ) (use_maker : Bool) :
    (c.calculate_categorical_arb outcome_asks position_size use_maker).is_profitable =
      decide (1 - outcome_asks.sum -
        (((if use_maker then c.maker_fee_bps else c.taker_fee_bps) / 10000) *
            (outcome_asks.length : ℚ) +
          c.merge_gas_usd / position_size + c.swap_spread_bps / 10000 +
          (c.safety_buffer_bps / 10000) * (outcome_asks.length : ℚ)) > 0) := rfl

/-- Unfolding lemma: binary net edge. -/
theorem calculate_binary_arb_net_edge (c : CostCalculator)
    (yes_ask no_ask position_size : ℚ) (use_maker : Bool) :
    (c.calculate_binary_arb yes_ask no_ask position_size use_maker).net_edge =
      1 - (yes_ask + no_ask) -
        (((if use_maker then c.maker_fee_bps else c.taker_fee_bps) / 10000) * 2 +
          c.merge_gas_usd / position_size + c.swap_spread_bps / 10000 +
          c.safety_buffer_bps / 10000) := rfl

/-- C3 counterexample: with the default calculator, three asks summing to
0.991 at size 100 have gross edge 0.009, strictly above
`minimum_edge_for_profit(100, 3, False) = 0.0082`, yet
`calculate_categorical_arb` reports `is_profitable = False` (its buffer is
`buffer * 3`, not the `buffer * 3/2` the breakeven helper uses). -/
theorem c3_breakeven_counterexample :
    1 - ((331:ℚ)/1000 + 33/100 + 33/100) >
      CostCalculator.default.minimum_edge_for_profit 100 3 false ∧
    (CostCalculator.default.calculate_categorical_arb
      [331/1000, 33/100, 33/100] 100 false).is_profitable = false := by
  constructor
  · rw [minimum_edge_for_profit_eq]
    norm_num [CostCalculator.default]
  · rw [calculate_categorical_arb_is_profitable]
    norm_num [CostCalculator.default]

/-- C3 amended: `minimum_edge_for_profit` is the exact breakeven gross edge
for the binary evaluation — `calculate_binary_arb` is profitable iff the
gross edge `1 - (askA + askB)` exceeds it, and a gross edge exactly equal to
it gives `net_edge = 0`. For the categorical evaluation the helper
underestimates the breakeven by half the amplified slippage buffer:
`calculate_categorical_arb` is profitable iff the gross edge exceeds
`minimum_edge_for_profit(size, n, maker) + (safety_buffer_bps/10000) * (n/2)`
where `n` is the number of asks. -/
theorem c3_breakeven_amended (c : CostCalculator) (position_size : ℚ)
    (use_maker : Bool) (yes_ask no_ask : ℚ) (outcome_asks : List ℚ) :
    ((c.calculate_binary_arb yes_ask no_ask position_size use_maker).is_profitable = true ↔
      1 - (yes_ask + no_ask) > c.minimum_edge_for_profit position_size 2 use_maker) ∧
    (1 - (yes_ask + no_ask) = c.minimum_edge_for_profit position_size 2 use_maker →
      (c.calculate_binary_arb yes_ask no_ask position_size use_maker).net_edge = 0) ∧
    ((c.calculate_categorical_arb outcome_asks position_size use_maker).is_profitable = true ↔
      1 - outcome_asks.sum >
        c.minimum_edge_for_profit position_size outcome_asks.length use_maker +
          (c.safety_buffer_bps / 10000) * ((outcome_asks.length : ℚ) / 2)) := by
  refine ⟨?_, ?_, ?_⟩
  · rw [calculate_binary_arb_is_profitable, minimum_edge_for_profit_eq,
      decide_eq_true_eq]
    constructor <;> intro h <;> linarith
  · intro h
    rw [minimum_edge_for_profit_eq] at h
    rw [calculate_binary_arb_net_edge]
    push_cast at h ⊢
    linarith
  · rw [calculate_categorical_arb_is_profitable, minimum_edge_for_profit_eq,
      decide_eq_true_eq]
    constructor <;> intro h <;> linarith

/-- C3 amended witness: the default calculator at size 100; asks 0.50/0.4943
sit exactly on the binary breakeven (`minimum_edge_for_profit = 0.0057`), and
the categorical characterization is checked on the counterexample's asks. -/
theorem c3_breakeven_amended_witness :
    ((CostCalculator.default.calculate_binary_arb (1/2) (4943/10000) 100 false).is_profitable
        = true ↔
      1 - ((1:ℚ)/2 + 4943/10000) > CostCalculator.default.minimum_edge_for_profit 100 2 false) ∧
    ((CostCalculator.default.calculate_binary_arb (1/2) (4943/10000) 100 false).net_edge = 0) ∧
    ((CostCalculator.default.calculate_categorical_arb
        [331/1000, 33/100, 33/100] 100 false).is_profitable = true ↔
      1 - ((331:ℚ)/1000 + 33/100 + 33/100) >
        CostCalculator.default.minimum_edge_for_profit 100 3 false +
          (CostCalculator.default.safety_buffer_bps / 10000) * (3 / 2)) := by
  have h := c3_breakeven_amended CostCalculator.default 100 false (1/2) (4943/10000)
    [331/1000, 33/100, 33/100]
  refine ⟨h.1, h.2.1 ?_, ?_⟩
  · rw [minimum_edge_for_profit_eq]
    norm_num [CostCalculator.default]
  · have h3 := h.2.2
    norm_num at h3 ⊢
    exact h3

/-- C6: when the active-trade count has reached `max_concurrent_trades`,
`execute_arbitrage` rejects immediately: the returned trade is `FAILED` with
the explanatory error, no order is placed, no cancel is issued, and the
active-trade set is unchanged. -/
theorem c6_admission_control (ex : OrderExecutor) (active_trades : List String)
    (trade_id : String) (opportunity : ArbitrageOpportunity)
    (place_results : List OrderResult) (finals : ℕ → Option OrderStatusR)
    (cancelOk : String → Bool)
    (h : active_trades.length ≥ ex.max_concurrent_trades) :
    (execute_arbitrage ex active_trades trade_id opportunity place_results
      finals cancelOk).trade.state = TradeState.failed ∧
    (execute_arbitrage ex active_trades trade_id opportunity place_results
      finals cancelOk).trade.error = some "Max concurrent trades reached" ∧
    (execute_arbitrage ex active_trades trade_id opportunity place_results
      finals cancelOk).active_after = active_trades ∧
    (execute_arbitrage ex active_trades trade_id opportunity place_results
      finals cancelOk).placed_orders = [] ∧
    (execute_arbitrage ex active_trades trade_id opportunity place_results
      finals cancelOk).cancel_calls = [] := by
  simp only [execute_arbitrage, if_pos h]
  exact ⟨trivial, trivial, trivial, trivial, trivial⟩

/-- C6 witness: a full executor (one active trade, capacity one) rejecting the
sample binary opportunity. -/
theorem c6_admission_control_witness :
    (["t0"].length ≥ ({ max_concurrent_trades := 1 } : OrderExecutor).max_concurrent_trades) ∧
    (execute_arbitrage { max_concurrent_trades := 1 } ["t0"] "t1"
      (.binary sampleBinaryOpp) samplePlaceResults samplePartialFinals
      (fun _ => true)).trade.state = TradeState.failed ∧
    (execute_arbitrage { max_concurrent_trades := 1 } ["t0"] "t1"
      (.binary sampleBinaryOpp) samplePlaceResults samplePartialFinals
      (fun _ => true)).active_after = ["t0"] ∧
    (execute_arbitrage { max_concurrent_trades := 1 } ["t0"] "t1"
      (.binary sampleBinaryOpp) samplePlaceResults samplePartialFinals
      (fun _ => true)).placed_orders = [] := by
  have h := c6_admission_control { max_concurrent_trades := 1 } ["t0"] "t1"
    (.binary sampleBinaryOpp) samplePlaceResults samplePartialFinals
    (fun _ => true) (by decide)
  exact ⟨by decide, h.1, h.2.2.1, h.2.2.2.1⟩

/-- The cancel calls `_cancel_trade_orders` issues: exactly the order ids of
the legs whose status is "LIVE", in leg order. -/
theorem cancel_trade_orders_calls (cancelOk : String → Bool) :
    ∀ legs : List OrderLeg,
      (cancel_trade_orders cancelOk legs).2 =
        legs.filterMap (fun leg => if leg.status = "LIVE" then leg.order_id else none)
  | [] => rfl
  | leg :: rest => by
    have ih := cancel_trade_orders_calls cancelOk rest
    cases hid : leg.order_id with
    | none => simp [cancel_trade_orders, hid, List.filterMap_cons, ite_self, ih]
    | some oid =>
      by_cases hl : leg.status = "LIVE"
      · by_cases hok : cancelOk oid <;>
          simp [cancel_trade_orders, hid, hl, hok, List.filterMap_cons, ih]
      · simp [cancel_trade_orders, hid, hl, List.filterMap_cons, ih]

/-- When every placement result reports success (and one arrived per leg),
`_place_orders` counts all legs as placed. -/
theorem place_success_count_full (legs : List OrderLeg)
    (place_results : List OrderResult)
    (hlen : place_results.length = legs.length)
    (hall : ∀ r ∈ place_results, r.success = true) :
    place_success_count legs place_results = legs.length := by
  unfold place_success_count
  rw [← hlen, List.take_length, List.filter_eq_self.mpr ?_, hlen]
  intro r hr
  simpa using hall r hr

/-- C1: a trade whose legs were all placed but which is not all-filled when
fill monitoring ends is handled by `_handle_partial_fill`: every leg still in
status "LIVE" gets exactly its cancel call, the trade ends `FAILED` with the
partial-fill error, and it can never reach `COMPLETED` (the merger refuses
any trade that is not `FULLY_FILLED`). -/
theorem c1_partial_fill_compensation (ex : OrderExecutor)
    (active_trades : List String) (trade_id : String)
    (opportunity : ArbitrageOpportunity) (place_results : List OrderResult)
    (finals : ℕ → Option OrderStatusR) (cancelOk : String → Bool)
    (hcap : active_trades.length < ex.max_concurrent_trades)
    (hlen : place_results.length = (create_trade trade_id opportunity).legs.length)
    (hall : ∀ r ∈ place_results, r.success = true)
    (hnot : ArbitrageTrade.all_filled_legs
      (monitor_fills finals
        (apply_place_results (create_trade trade_id opportunity).legs place_results))
      = false) :
    (execute_arbitrage ex active_trades trade_id opportunity place_results
      finals cancelOk).trade.state = TradeState.failed ∧
    (execute_arbitrage ex active_trades trade_id opportunity place_results
      finals cancelOk).trade.error = some "Partial fill - orders cancelled" ∧
    (execute_arbitrage ex active_trades trade_id opportunity place_results
      finals cancelOk).cancel_calls =
      (monitor_fills finals
        (apply_place_results (create_trade trade_id opportunity).legs place_results)).filterMap
        (fun leg => if leg.status = "LIVE" then leg.order_id else none) ∧
    (execute_arbitrage ex active_trades trade_id opportunity place_results
      finals cancelOk).trade.state ≠ TradeState.completed ∧
    (∀ (m : TokenMerger) (env : ℕ → MergeAttempt) (rs : List MergeResult),
      (merge_trade m (execute_arbitrage ex active_trades trade_id opportunity
          place_results finals cancelOk).trade env rs).toOption.map
        (fun o => o.trade.state) ≠ some TradeState.completed) := by
  have hne : ¬ (active_trades.length ≥ ex.max_concurrent_trades) := not_le.mpr hcap
  have hcount := place_success_count_full (create_trade trade_id opportunity).legs
    place_results hlen hall
  have hexec : execute_arbitrage ex active_trades trade_id opportunity
      place_results finals cancelOk =
      { trade := { create_trade trade_id opportunity with
                   legs := (cancel_trade_orders cancelOk
                     (monitor_fills finals
                       (apply_place_results (create_trade trade_id opportunity).legs
                         place_results))).1
                   state := .failed
                   error := some "Partial fill - orders cancelled" }
        active_after := active_trades
        placed_orders := (create_trade trade_id opportunity).legs.map
          (fun leg => (leg.token_id, leg.side, leg.size, leg.price))
        cancel_calls := (cancel_trade_orders cancelOk
          (monitor_fills finals
            (apply_place_results (create_trade trade_id opportunity).legs
              place_results))).2 } := by
    simp only [execute_arbitrage, if_neg hne, hcount, lt_self_iff_false, if_false, hnot,
      Bool.false_eq_true, ite_false]
  rw [hexec]
  refine ⟨rfl, rfl, cancel_trade_orders_calls cancelOk _, by simp, ?_⟩
  intro m env rs
  simp [merge_trade, Except.toOption]

/-- C1 witness: both legs of the sample binary trade place live, leg 1 fully
matches, leg 2 fills only 40% — the trade fails with the partial-fill error
and exactly leg 2's order is cancelled. -/
theorem c1_partial_fill_compensation_witness :
    (execute_arbitrage { } [] "t1" (.binary sampleBinaryOpp) samplePlaceResults
      samplePartialFinals (fun _ => true)).trade.state = TradeState.failed ∧
    (execute_arbitrage { } [] "t1" (.binary sampleBinaryOpp) samplePlaceResults
      samplePartialFinals (fun _ => true)).trade.error =
      some "Partial fill - orders cancelled" ∧
    (execute_arbitrage { } [] "t1" (.binary sampleBinaryOpp) samplePlaceResults
      samplePartialFinals (fun _ => true)).cancel_calls = ["o2"] ∧
    ((merge_trade { } (execute_arbitrage { } [] "t1" (.binary sampleBinaryOpp)
        samplePlaceResults samplePartialFinals (fun _ => true)).trade
        (fun _ => .exn "err") []).toOption.map (fun o => o.trade.state) ≠
      some TradeState.completed) := by
  have h := c1_partial_fill_compensation { } [] "t1" (.binary sampleBinaryOpp)
    samplePlaceResults samplePartialFinals (fun _ => true)
    (by decide) (by decide) (by decide)
    (by
      simp [ArbitrageTrade.all_filled_legs, monitor_fills, monitor_fills_go,
        apply_place_results, create_trade, sampleBinaryOpp, samplePlaceResults,
        samplePartialFinals, List.all_cons, decide_eq_true_eq]
      norm_num)
  refine ⟨h.1, h.2.1, ?_, h.2.2.2.2 { } (fun _ => .exn "err") []⟩
  rw [h.2.2.1]
  decide

/-- C10: a fully-filled trade whose merge amount is below `min_merge_amount`
is refused by `merge_trade` without any on-chain call, but the trade is left
in the non-terminal `MERGING` state (never reset, not `FAILED`) and the
failure result is not appended to the history, so `get_merge_results` and
`get_stats` never see it. -/
theorem c10_below_minimum_merge (m : TokenMerger) (trade : ArbitrageTrade)
    (env : ℕ → MergeAttempt) (rs : List MergeResult)
    (hstate : trade.state = TradeState.fully_filled)
    (hlegs : trade.legs ≠ [])
    (hbelow : merge_amount_of trade.legs < m.min_merge_amount) :
    ∃ outcome, merge_trade m trade env rs = .ok outcome ∧
      outcome.result.success = false ∧
      outcome.merge_calls = [] ∧
      outcome.trade.state = TradeState.merging ∧
      outcome.trade.state ≠ TradeState.failed ∧
      outcome.merge_results = rs ∧
      get_merge_results outcome.merge_results = get_merge_results rs ∧
      get_stats outcome.merge_results = get_stats rs := by
  obtain ⟨leg, rest, hlr⟩ : ∃ leg rest, trade.legs = leg :: rest := by
    cases h : trade.legs with
    | nil => exact absurd h hlegs
    | cons a l => exact ⟨a, l, rfl⟩
  have hma : merge_amount_of trade.legs =
      (rest.map OrderLeg.filled_size).foldl min leg.filled_size := by
    rw [merge_amount_of, hlr]
    simp
  rw [hma] at hbelow
  simp only [merge_trade]
  rw [if_neg (by simp [hstate])]
  simp only [hlr, List.map_cons, if_pos hbelow]
  exact ⟨_, rfl, rfl, rfl, rfl, by simp, rfl, rfl, rfl⟩

/-- C10 witness: the default merger refuses the half-filled sample trade,
leaving it MERGING with an empty result history. -/
theorem c10_below_minimum_merge_witness :
    (merge_trade { } sampleLowFillTrade (fun _ => .exn "err") []).toOption.map
      (fun o => (o.result.success, o.trade.state, o.merge_calls, o.merge_results)) =
      some (false, TradeState.merging, [], []) := by
  obtain ⟨outcome, heq, hsucc, hcalls, hst, _, hres, _, _⟩ :=
    c10_below_minimum_merge { } sampleLowFillTrade (fun _ => .exn "err") []
      (by decide) (by decide)
      (by
        simp [merge_amount_of, sampleLowFillTrade, TokenMerger.min_merge_amount]
        norm_num [min_def])
  rw [heq]
  simp [Except.toOption, hsucc, hcalls, hst, hres]

/-- Retry loop, success case: after `N` failing attempts (`N` below the
remaining budget) the `(N+1)`th attempt's transaction succeeds; the loop made
exactly `N+1` calls, all with the same amount. -/
theorem merge_retry_go_success (mr : ℕ) (tid : String) (legs : List OrderLeg)
    (amt : ℚ) (env : ℕ → MergeAttempt) :
    ∀ (N remaining idx : ℕ) (le : Option String),
      N < remaining →
      (∀ i, i < N → attempt_failed (env (idx + i)) = true) →
      attempt_failed (env (idx + N)) = false →
      ∃ r : TransactionResult, env (idx + N) = .tx r ∧ r.success = true ∧
        merge_retry_go mr tid legs amt env remaining idx le =
          ({ success := true, trade_id := tid, tx_hash := r.tx_hash,
             gas_used := r.gas_used, gas_cost_usd := r.gas_cost_usd,
             amount_merged := amt,
             profit_realized := amt - total_leg_cost legs - r.gas_cost_usd },
           List.replicate (N + 1) amt) := by
  intro N
  induction N with
  | zero =>
    intro remaining idx le hlt hfail hsucc
    obtain ⟨r', rfl⟩ : ∃ r', remaining = r' + 1 := ⟨remaining - 1, by omega⟩
    rw [Nat.add_zero] at hsucc
    cases henv : env idx with
    | tx r =>
      have hs : r.success = true := by
        rw [henv] at hsucc
        simpa [attempt_failed] using hsucc
      refine ⟨r, by rw [Nat.add_zero]; exact henv, hs, ?_⟩
      simp [merge_retry_go, henv, hs, List.replicate]
    | exn msg =>
      rw [henv] at hsucc
      simp [attempt_failed] at hsucc
  | succ N ih =>
    intro remaining idx le hlt hfail hsucc
    obtain ⟨r', rfl⟩ : ∃ r', remaining = r' + 1 := ⟨remaining - 1, by omega⟩
    have h0 : attempt_failed (env idx) = true := by
      have := hfail 0 (Nat.succ_pos N)
      rwa [Nat.add_zero] at this
    have hlt' : N < r' := by omega
    have hfail' : ∀ i, i < N → attempt_failed (env (idx + 1 + i)) = true := by
      intro i hi
      have h := hfail (i + 1) (by omega)
      rwa [show idx + (i + 1) = idx + 1 + i from by omega] at h
    have hsucc' : attempt_failed (env (idx + 1 + N)) = false := by
      rw [show idx + 1 + N = idx + (N + 1) from by omega]
      exact hsucc
    cases henv : env idx with
    | tx r =>
      have hrs : r.success = false := by
        rw [henv] at h0
        simpa [attempt_failed] using h0
      obtain ⟨r2, henv2, hs2, hgo⟩ := ih r' (idx + 1) r.error hlt' hfail' hsucc'
      refine ⟨r2, by rw [show idx + (N + 1) = idx + 1 + N from by omega]; exact henv2,
        hs2, ?_⟩
      simp only [merge_retry_go, henv, hrs, Bool.false_eq_true, if_false, hgo]
      simp [List.replicate_succ]
    | exn msg =>
      obtain ⟨r2, henv2, hs2, hgo⟩ := ih r' (idx + 1) (some msg) hlt' hfail' hsucc'
      refine ⟨r2, by rw [show idx + (N + 1) = idx + 1 + N from by omega]; exact henv2,
        hs2, ?_⟩
      simp only [merge_retry_go, henv, hgo]
      simp [List.replicate_succ]

/-- Retry loop, exhaustion case: when every attempt in the remaining budget
fails, the loop makes exactly that many calls and reports the message built
from the last attempt's error. -/
theorem merge_retry_go_all_fail (mr : ℕ) (tid : String) (legs : List OrderLeg)
    (amt : ℚ) (env : ℕ → MergeAttempt) :
    ∀ (remaining idx : ℕ) (le : Option String),
      (∀ i, i < remaining → attempt_failed (env (idx + i)) = true) →
      merge_retry_go mr tid legs amt env remaining idx le =
        ({ success := false, trade_id := tid, tx_hash := "", gas_used := 0,
           gas_cost_usd := 0, amount_merged := 0, profit_realized := 0,
           error := some (merge_fail_msg mr
             (if remaining = 0 then le
              else attempt_error (env (idx + remaining - 1)))) },
         List.replicate remaining amt) := by
  intro remaining
  induction remaining with
  | zero =>
    intro idx le _
    simp [merge_retry_go]
  | succ r ih =>
    intro idx le hfail
    have h0 : attempt_failed (env idx) = true := by
      have := hfail 0 (Nat.succ_pos r)
      rwa [Nat.add_zero] at this
    have hfail' : ∀ i, i < r → attempt_failed (env (idx + 1 + i)) = true := by
      intro i hi
      have h := hfail (i + 1) (by omega)
      rwa [show idx + (i + 1) = idx + 1 + i from by omega] at h
    cases henv : env idx with
    | tx rr =>
      have hrs : rr.success = false := by
        rw [henv] at h0
        simpa [attempt_failed] using h0
      have hgo := ih (idx + 1) rr.error hfail'
      simp only [merge_retry_go, henv, hrs, Bool.false_eq_true, if_false, hgo]
      rw [Prod.mk.injEq]
      refine ⟨?_, by simp [List.replicate_succ]⟩
      cases r with
      | zero => simp [henv, attempt_error]
      | succ r2 =>
        have hidx : idx + 1 + (r2 + 1) - 1 = idx + (r2 + 1 + 1) - 1 := by omega
        rw [if_neg (Nat.succ_ne_zero _), if_neg (Nat.succ_ne_zero _), hidx]
    | exn msg =>
      have hgo := ih (idx + 1) (some msg) hfail'
      simp only [merge_retry_go, henv, hgo]
      rw [Prod.mk.injEq]
      refine ⟨?_, by simp [List.replicate_succ]⟩
      cases r with
      | zero => simp [henv, attempt_error]
      | succ r2 =>
        have hidx : idx + 1 + (r2 + 1) - 1 = idx + (r2 + 1 + 1) - 1 := by omega
        rw [if_neg (Nat.succ_ne_zero _), if_neg (Nat.succ_ne_zero _), hidx]

/-- C4: for a fully-filled trade whose merge amount passes the minimum check,
`N` consecutive failures followed by a success (with `N < max_retries`) give
exactly `N+1` merge attempts, all with the same computed amount, and a
COMPLETED trade; when every attempt fails, exactly `max_retries` attempts are
made, the result is a failure whose error message carries the last underlying
error, and the trade ends FAILED. Either way the result is appended to the
history. -/
theorem c4_merge_retry_bound (m : TokenMerger) (trade : ArbitrageTrade)
    (env : ℕ → MergeAttempt) (rs : List MergeResult) (N : ℕ)
    (hstate : trade.state = TradeState.fully_filled)
    (hlegs : trade.legs ≠ [])
    (hmin : m.min_merge_amount ≤ merge_amount_of trade.legs) :
    (N < m.max_retries →
      (∀ i, i < N → attempt_failed (env i) = true) →
      attempt_failed (env N) = false →
      ∃ outcome, merge_trade m trade env rs = .ok outcome ∧
        outcome.merge_calls = List.replicate (N + 1) (merge_amount_of trade.legs) ∧
        outcome.result.success = true ∧
        outcome.trade.state = TradeState.completed ∧
        outcome.merge_results = rs ++ [outcome.result]) ∧
    ((∀ i, i < m.max_retries → attempt_failed (env i) = true) →
      ∃ outcome, merge_trade m trade env rs = .ok outcome ∧
        outcome.merge_calls = List.replicate m.max_retries (merge_amount_of trade.legs) ∧
        outcome.result.success = false ∧
        outcome.trade.state = TradeState.failed ∧
        outcome.result.error = some (merge_fail_msg m.max_retries
          (if m.max_retries = 0 then none else attempt_error (env (m.max_retries - 1)))) ∧
        outcome.trade.error = outcome.result.error ∧
        outcome.merge_results = rs ++ [outcome.result]) := by
  obtain ⟨leg, rest, hlr⟩ : ∃ leg rest, trade.legs = leg :: rest := by
    cases h : trade.legs with
    | nil => exact absurd h hlegs
    | cons a l => exact ⟨a, l, rfl⟩
  have hma : merge_amount_of trade.legs =
      (rest.map OrderLeg.filled_size).foldl min leg.filled_size := by
    rw [merge_amount_of, hlr]
    simp
  have hnl : ¬ ((rest.map OrderLeg.filled_size).foldl min leg.filled_size <
      m.min_merge_amount) := by
    rw [← hma]
    exact not_lt.mpr hmin
  constructor
  · intro hN hfail hsucc
    have hfail0 : ∀ i, i < N → attempt_failed (env (0 + i)) = true := by
      intro i hi
      rw [Nat.zero_add]
      exact hfail i hi
    have hsucc0 : attempt_failed (env (0 + N)) = false := by
      rw [Nat.zero_add]
      exact hsucc
    obtain ⟨r, _, hs, hgo⟩ := merge_retry_go_success m.max_retries trade.trade_id
      (leg :: rest) ((rest.map OrderLeg.filled_size).foldl min leg.filled_size)
      env N m.max_retries 0 none hN hfail0 hsucc0
    simp only [merge_trade]
    rw [if_neg (by simp [hstate])]
    simp only [hlr, List.map_cons, if_neg hnl, execute_merge_with_retry, hgo, hs,
      if_true]
    exact ⟨_, rfl, by simp [merge_amount_of], rfl, rfl, rfl⟩
  · intro hfail
    have hfail0 : ∀ i, i < m.max_retries → attempt_failed (env (0 + i)) = true := by
      intro i hi
      rw [Nat.zero_add]
      exact hfail i hi
    have hgo := merge_retry_go_all_fail m.max_retries trade.trade_id
      (leg :: rest) ((rest.map OrderLeg.filled_size).foldl min leg.filled_size)
      env m.max_retries 0 none hfail0
    rw [Nat.zero_add] at hgo
    simp only [merge_trade]
    rw [if_neg (by simp [hstate])]
    simp only [hlr, List.map_cons, if_neg hnl, execute_merge_with_retry, hgo,
      Bool.false_eq_true, if_false]
    exact ⟨_, rfl, by simp [merge_amount_of], rfl, rfl, rfl, rfl, rfl⟩

/-- C4 witness: the default merger (three retries) merging the 40-token
sample trade; one early failure then success completes in two attempts, and
a permanently failing chain fails after exactly three attempts with the last
error preserved. -/
theorem c4_merge_retry_bound_witness :
    ((merge_trade { } sampleFilledTrade
        (fun i => if i = 0 then .exn "rpc down"
          else .tx { success := true, tx_hash := "0xabc", gas_used := 50000,
                     gas_cost_usd := 1/100 }) []).toOption.map
      (fun o => (o.trade.state, o.merge_calls, o.result.success)) =
      some (TradeState.completed, [40, 40], true)) ∧
    ((merge_trade { } sampleFilledTrade (fun _ => .exn "always down") []).toOption.map
      (fun o => (o.trade.state, o.merge_calls, o.result.success, o.result.error)) =
      some (TradeState.failed, [40, 40, 40], false,
        some (merge_fail_msg 3 (some "always down")))) := by
  have hmin : ({ } : TokenMerger).min_merge_amount ≤
      merge_amount_of sampleFilledTrade.legs := by
    simp [merge_amount_of, sampleFilledTrade, TokenMerger.min_merge_amount]
  have hma : merge_amount_of sampleFilledTrade.legs = 40 := by
    simp [merge_amount_of, sampleFilledTrade]
  constructor
  · obtain ⟨outcome, heq, hcalls, hsucc, hst, _⟩ :=
      (c4_merge_retry_bound { } sampleFilledTrade
        (fun i => if i = 0 then .exn "rpc down"
          else .tx { success := true, tx_hash := "0xabc", gas_used := 50000,
                     gas_cost_usd := 1/100 }) [] 1
        (by decide) (by decide) hmin).1
        (by decide) (by decide) (by decide)
    rw [heq]
    simp [Except.toOption, hcalls, hsucc, hst, hma, List.replicate]

  · obtain ⟨outcome, heq, hcalls, hsucc, hst, herr, _, _⟩ :=
      (c4_merge_retry_bound { } sampleFilledTrade (fun _ => .exn "always down")
        [] 0 (by decide) (by decide) hmin).2 (by decide)
    rw [heq]
    simp [Except.toOption, hcalls, hsucc, hst, herr, hma, List.replicate,
      attempt_error]

/-- The subscription batches partition the snapshot: concatenating them gives
back exactly the original list. -/
theorem batches100_flatten (l : List String) : (batches100 l).flatten = l := by
  match l with
  | [] =>
    rw [batches100]
    rfl
  | a :: rest =>
    rw [batches100]
    have ih := batches100_flatten ((a :: rest).drop 100)
    rw [List.flatten_cons, ih, List.take_append_drop]
termination_by l.length
decreasing_by
  simp only [List.length_drop, List.length_cons]
  omega

/-- C8: resubscription after a reconnect sends subscribe frames covering
exactly the previously-subscribed asset ids — no more, no fewer — and leaves
the stored subscription set equal to the pre-disconnect set; `connect` (which
triggers it) preserves the stored set as well. -/
theorem c8_resubscription_exact (subscribed_assets : List String) :
    ((resubscribe subscribed_assets).1.map SubMessage.assets_ids).flatten =
      subscribed_assets ∧
    (resubscribe subscribed_assets).2 = subscribed_assets ∧
    (∀ a, (∃ msg ∈ (resubscribe subscribed_assets).1, a ∈ msg.assets_ids) ↔
      a ∈ subscribed_assets) ∧
    ((connect_resubscribe subscribed_assets).1.map SubMessage.assets_ids).flatten =
      subscribed_assets ∧
    (connect_resubscribe subscribed_assets).2 = subscribed_assets := by
  have h1 : ((resubscribe subscribed_assets).1.map SubMessage.assets_ids).flatten =
      subscribed_assets := by
    simp only [resubscribe, List.map_map]
    have hmap : ((batches100 subscribed_assets).enum.map
        (fun bi => SubMessage.assets_ids { assets_ids := bi.2, initial := bi.1 = 0 })) =
        batches100 subscribed_assets := by
      simp [List.enum_map_snd]
    rw [show (SubMessage.assets_ids ∘ fun bi : ℕ × List String =>
        ({ assets_ids := bi.2, initial := bi.1 = 0 } : SubMessage)) =
        (fun bi : ℕ × List String => bi.2) from rfl]
    rw [List.enum_map_snd, batches100_flatten]
  have h2 : (resubscribe subscribed_assets).2 = subscribed_assets := by
    simp only [resubscribe]
    exact batches100_flatten subscribed_assets
  refine ⟨h1, h2, ?_, ?_, ?_⟩
  · intro a
    have hm : (∃ msg ∈ (resubscribe subscribed_assets).1, a ∈ msg.assets_ids) ↔
        a ∈ ((resubscribe subscribed_assets).1.map SubMessage.assets_ids).flatten := by
      simp [List.mem_flatten]
    rw [hm, h1]
  · cases he : subscribed_assets.isEmpty
    · simp only [connect_resubscribe, he, Bool.false_eq_true, if_false]
      exact h1
    · simp only [connect_resubscribe, he, if_true]
      simp [List.isEmpty_iff.mp he]
  · cases he : subscribed_assets.isEmpty
    · simp only [connect_resubscribe, he, Bool.false_eq_true, if_false]
      exact h2
    · simp only [connect_resubscribe, he, if_true]

/-- Every level produced by `_update_book_level` keeps an existing price or
carries the update's price. -/
theorem update_book_level_price_mem (price size : ℚ) :
    ∀ (levels : List OrderBookLevel), ∀ x ∈ update_book_level levels price size,
      x.price ∈ levels.map OrderBookLevel.price ∨ x.price = price := by
  intro levels
  induction levels with
  | nil =>
    intro x hx
    rw [update_book_level] at hx
    split at hx
    · simp only [List.mem_singleton] at hx
      right
      rw [hx]
    · simp at hx
  | cons l ls ih =>
    intro x hx
    rw [update_book_level] at hx
    split at hx
    · split at hx
      · exact Or.inl (by simp [List.mem_map]; exact Or.inr ⟨x, hx, rfl⟩)
      · rcases List.mem_cons.mp hx with rfl | hx2
        · exact Or.inl (by simp)
        · exact Or.inl (by simp [List.mem_map]; exact Or.inr ⟨x, hx2, rfl⟩)
    · rcases List.mem_cons.mp hx with rfl | hx2
      · exact Or.inl (by simp)
      · rcases ih x hx2 with hm | he
        · exact Or.inl (by simp at hm ⊢; exact Or.inr hm)
        · exact Or.inr he

/-- `_update_book_level` preserves the tolerance-separation invariant on a
book side. -/
theorem update_book_level_sep (price size : ℚ) :
    ∀ (levels : List OrderBookLevel),
      levels.Pairwise (fun a b => 1/10000 ≤ |a.price - b.price|) →
      (update_book_level levels price size).Pairwise
        (fun a b => 1/10000 ≤ |a.price - b.price|) := by
  intro levels
  induction levels with
  | nil =>
    intro _
    rw [update_book_level]
    split
    · exact List.pairwise_singleton _ _
    · exact List.Pairwise.nil
  | cons l ls ih =>
    intro h
    obtain ⟨hl, hls⟩ := List.pairwise_cons.mp h
    rw [update_book_level]
    split
    · split
      · exact hls
      · exact List.pairwise_cons.mpr ⟨fun b hb => hl b hb, hls⟩
    · rename_i hnm
      refine List.pairwise_cons.mpr ⟨?_, ih hls⟩
      intro b hb
      rcases update_book_level_price_mem price size ls b hb with hm | he
      · obtain ⟨c, hc, hcp⟩ := List.mem_map.mp hm
        rw [← hcp]
        exact hl c hc
      · rw [he]
        exact not_lt.mp hnm

/-- `_update_book_level` with no level within tolerance: a positive size
appends a fresh level, any other size leaves the side unchanged. -/
theorem update_book_level_no_match (price size : ℚ) :
    ∀ (levels : List OrderBookLevel),
      (∀ l ∈ levels, ¬ |l.price - price| < 1/10000) →
      update_book_level levels price size =
        if 0 < size then levels ++ [{ price := price, size := size }] else levels := by
  intro levels
  induction levels with
  | nil =>
    intro _
    rw [update_book_level]
    split <;> simp_all
  | cons l ls ih =>
    intro h
    rw [update_book_level, if_neg (h l (List.mem_cons_self l ls)),
      ih (fun x hx => h x (List.mem_cons_of_mem l hx))]
    split <;> rfl

/-- Replacing the size keeps every exact-price non-matching level: the map is
the identity off the updated price. -/
theorem map_price_update_self (price size : ℚ) :
    ∀ (ls : List OrderBookLevel), (∀ x ∈ ls, x.price ≠ price) →
      ls.map (fun l => if l.price = price then { l with size := size } else l) = ls := by
  intro ls
  induction ls with
  | nil => intro _; rfl
  | cons l ls ih =>
    intro h
    rw [List.map_cons, if_neg (h l (List.mem_cons_self l ls)),
      ih (fun x hx => h x (List.mem_cons_of_mem l hx))]

/-- On a separated side, an update with size 0 at the exact price of a present
level removes exactly that level. -/
theorem update_book_level_remove (price : ℚ) :
    ∀ (levels : List OrderBookLevel),
      levels.Pairwise (fun a b => 1/10000 ≤ |a.price - b.price|) →
      ∀ B ∈ levels, B.price = price →
      update_book_level levels price 0 =
        levels.filter (fun l => l.price ≠ price) := by
  intro levels
  induction levels with
  | nil => intro _ B hB; exact absurd hB (List.not_mem_nil B)
  | cons l ls ih =>
    intro h B hB hBp
    obtain ⟨hl, hls⟩ := List.pairwise_cons.mp h
    rcases List.mem_cons.mp hB with rfl | hBls
    · rw [update_book_level, if_pos (by rw [hBp, sub_self, abs_zero]; norm_num),
        if_pos rfl]
      have hall : ∀ x ∈ ls, x.price ≠ price := by
        intro x hx hxe
        have := hl x hx
        rw [hBp, hxe, sub_self, abs_zero] at this
        norm_num at this
      rw [List.filter_cons_of_neg (by simp [hBp]),
        List.filter_eq_self.mpr (fun x hx => by simpa using hall x hx)]
    · have hlB := hl B hBls
      have hlne : ¬ |l.price - price| < 1/10000 := by
        rw [← hBp]
        exact not_lt.mpr hlB
      rw [update_book_level, if_neg hlne, ih hls B hBls hBp,
        List.filter_cons_of_pos]
      simp only [decide_eq_true_eq]
      intro he
      rw [he, sub_self, abs_zero] at hlne
      exact hlne (by norm_num)

/-- On a separated side, a nonzero-size update at the exact price of a present
level replaces that level's size in place. -/
theorem update_book_level_replace (price size : ℚ) (hsz : size ≠ 0) :
    ∀ (levels : List OrderBookLevel),
      levels.Pairwise (fun a b => 1/10000 ≤ |a.price - b.price|) →
      ∀ B ∈ levels, B.price = price →
      update_book_level levels price size =
        levels.map (fun l => if l.price = price then { l with size := size } else l) := by
  intro levels
  induction levels with
  | nil => intro _ B hB; exact absurd hB (List.not_mem_nil B)
  | cons l ls ih =>
    intro h B hB hBp
    obtain ⟨hl, hls⟩ := List.pairwise_cons.mp h
    rcases List.mem_cons.mp hB with rfl | hBls
    · rw [update_book_level, if_pos (by rw [hBp, sub_self, abs_zero]; norm_num),
        if_neg hsz, List.map_cons, if_pos hBp]
      have hall : ∀ x ∈ ls, x.price ≠ price := by
        intro x hx hxe
        have := hl x hx
        rw [hBp, hxe, sub_self, abs_zero] at this
        norm_num at this
      rw [map_price_update_self price size ls hall]
    · have hlB := hl B hBls
      have hlne : ¬ |l.price - price| < 1/10000 := by
        rw [← hBp]
        exact not_lt.mpr hlB
      have hlp : l.price ≠ price := by
        intro he
        rw [he, sub_self, abs_zero] at hlne
        exact hlne (by norm_num)
      rw [update_book_level, if_neg hlne, ih hls B hBls hBp, List.map_cons,
        if_neg hlp]

/-- `foldl max` over a list bounds the seed and every element, and is the
seed or an element. -/
theorem foldl_max_spec :
    ∀ (ps : List ℚ) (p : ℚ),
      (p ≤ ps.foldl max p ∧ ∀ q ∈ ps, q ≤ ps.foldl max p) ∧
      (ps.foldl max p = p ∨ ps.foldl max p ∈ ps) := by
  intro ps
  induction ps with
  | nil => intro p; exact ⟨⟨le_refl p, by simp⟩, Or.inl rfl⟩
  | cons q ps ih =>
    intro p
    obtain ⟨⟨hle, hall⟩, hmem⟩ := ih (max p q)
    refine ⟨⟨le_trans (le_max_left p q) hle, ?_⟩, ?_⟩
    · intro r hr
      rcases List.mem_cons.mp hr with rfl | hr2
      · exact le_trans (le_max_right p r) hle
      · exact hall r hr2
    · rcases hmem with he | hm
      · rcases max_choice p q with hc | hc
        · exact Or.inl (by rw [List.foldl_cons, he, hc])
        · exact Or.inr (by rw [List.foldl_cons, he, hc]; exact List.mem_cons_self q ps)
      · exact Or.inr (List.mem_cons_of_mem q hm)

/-- `foldl min` over a list bounds the seed and every element from below, and
is the seed or an element. -/
theorem foldl_min_spec :
    ∀ (ps : List ℚ) (p : ℚ),
      (ps.foldl min p ≤ p ∧ ∀ q ∈ ps, ps.foldl min p ≤ q) ∧
      (ps.foldl min p = p ∨ ps.foldl min p ∈ ps) := by
  intro ps
  induction ps with
  | nil => intro p; exact ⟨⟨le_refl p, by simp⟩, Or.inl rfl⟩
  | cons q ps ih =>
    intro p
    obtain ⟨⟨hle, hall⟩, hmem⟩ := ih (min p q)
    refine ⟨⟨le_trans hle (min_le_left p q), ?_⟩, ?_⟩
    · intro r hr
      rcases List.mem_cons.mp hr with rfl | hr2
      · exact le_trans hle (min_le_right p r)
      · exact hall r hr2
    · rcases hmem with he | hm
      · rcases min_choice p q with hc | hc
        · exact Or.inl (by rw [List.foldl_cons, he, hc])
        · exact Or.inr (by rw [List.foldl_cons, he, hc]; exact List.mem_cons_self q ps)
      · exact Or.inr (List.mem_cons_of_mem q hm)

/-- `best_bid` of a nonempty bid side is a well-defined maximum. -/
theorem best_bid_spec (bk : OrderBook) (h : bk.bids ≠ []) :
    ∃ p, bk.best_bid = some p ∧ p ∈ bk.bids.map OrderBookLevel.price ∧
      ∀ l ∈ bk.bids, l.price ≤ p := by
  rcases hb : bk.bids with _ | ⟨b, bs⟩
  · exact absurd hb h
  · refine ⟨(bs.map OrderBookLevel.price).foldl max b.price, ?_, ?_, ?_⟩
    · rw [OrderBook.best_bid, hb, List.map_cons]
    · obtain ⟨_, hmem⟩ := foldl_max_spec (bs.map OrderBookLevel.price) b.price
      rcases hmem with he | hm
      · rw [he, List.map_cons]
        exact List.mem_cons_self _ _
      · rw [List.map_cons]
        exact List.mem_cons_of_mem _ hm
    · intro l hl
      obtain ⟨⟨hle, hall⟩, _⟩ := foldl_max_spec (bs.map OrderBookLevel.price) b.price
      rcases List.mem_cons.mp hl with rfl | hl2
      · exact hle
      · exact hall l.price (List.mem_map_of_mem OrderBookLevel.price hl2)

/-- `best_ask` of a nonempty ask side is a well-defined minimum. -/
theorem best_ask_spec (bk : OrderBook) (h : bk.asks ≠ []) :
    ∃ p, bk.best_ask = some p ∧ p ∈ bk.asks.map OrderBookLevel.price ∧
      ∀ l ∈ bk.asks, p ≤ l.price := by
  rcases hb : bk.asks with _ | ⟨b, bs⟩
  · exact absurd hb h
  · refine ⟨(bs.map OrderBookLevel.price).foldl min b.price, ?_, ?_, ?_⟩
    · rw [OrderBook.best_ask, hb, List.map_cons]
    · obtain ⟨_, hmem⟩ := foldl_min_spec (bs.map OrderBookLevel.price) b.price
      rcases hmem with he | hm
      · rw [he, List.map_cons]
        exact List.mem_cons_self _ _
      · rw [List.map_cons]
        exact List.mem_cons_of_mem _ hm
    · intro l hl
      obtain ⟨⟨hle, hall⟩, _⟩ := foldl_min_spec (bs.map OrderBookLevel.price) b.price
      rcases List.mem_cons.mp hl with rfl | hl2
      · exact hle
      · exact hall l.price (List.mem_map_of_mem OrderBookLevel.price hl2)

/-- C9: on a book side whose levels are pairwise at least the 0.0001 tolerance
apart, `_update_book_level` preserves the separation (hence at most one level
per price), a size-0 update removes exactly the level at that price when one
is present, a nonzero update replaces that level's size in place, a
no-match positive-size update inserts a fresh level, and `best_bid`/`best_ask`
remain the max bid price and min ask price. -/
theorem c9_book_level_upsert (levels : List OrderBookLevel) (price size : ℚ)
    (h : levels.Pairwise (fun a b => 1/10000 ≤ |a.price - b.price|)) :
    (update_book_level levels price size).Pairwise
      (fun a b => 1/10000 ≤ |a.price - b.price|) ∧
    ((∀ l ∈ levels, ¬ |l.price - price| < 1/10000) →
      update_book_level levels price size =
        if 0 < size then levels ++ [{ price := price, size := size }] else levels) ∧
    (∀ B ∈ levels, B.price = price →
      update_book_level levels price 0 =
        levels.filter (fun l => l.price ≠ price)) ∧
    (size ≠ 0 → ∀ B ∈ levels, B.price = price →
      update_book_level levels price size =
        levels.map (fun l => if l.price = price then { l with size := size } else l)) ∧
    (∀ bk : OrderBook, bk.bids ≠ [] → ∃ p, bk.best_bid = some p ∧
      p ∈ bk.bids.map OrderBookLevel.price ∧ ∀ l ∈ bk.bids, l.price ≤ p) ∧
    (∀ bk : OrderBook, bk.asks ≠ [] → ∃ p, bk.best_ask = some p ∧
      p ∈ bk.asks.map OrderBookLevel.price ∧ ∀ l ∈ bk.asks, p ≤ l.price) :=
  ⟨update_book_level_sep price size levels h,
   update_book_level_no_match price size levels,
   update_book_level_remove price levels h,
   fun hsz => update_book_level_replace price size hsz levels h,
   best_bid_spec, best_ask_spec⟩

/-- C9 witness: on the separated side [0.50 x 5, 0.60 x 7], a size-0 update at
0.60 removes that level, a size-9 update at 0.60 replaces its size, and a
size-2 update at 0.70 appends a new level. -/
theorem c9_book_level_upsert_witness :
    update_book_level
      [{ price := (1:ℚ)/2, size := 5 }, { price := 3/5, size := 7 }] (3/5) 0 =
      [{ price := 1/2, size := 5 }] ∧
    update_book_level
      [{ price := (1:ℚ)/2, size := 5 }, { price := 3/5, size := 7 }] (3/5) 9 =
      [{ price := 1/2, size := 5 }, { price := 3/5, size := 9 }] ∧
    update_book_level
      [{ price := (1:ℚ)/2, size := 5 }, { price := 3/5, size := 7 }] (7/10) 2 =
      [{ price := 1/2, size := 5 }, { price := 3/5, size := 7 },
       { price := 7/10, size := 2 }] := by
  have habs : |(1:ℚ)/2 - 3/5| = 1/10 := by
    rw [show (1:ℚ)/2 - 3/5 = -(1/10) by norm_num, abs_neg, abs_of_pos (by norm_num)]
  have hpw : ([{ price := (1:ℚ)/2, size := 5 }, { price := 3/5, size := 7 }] :
      List OrderBookLevel).Pairwise (fun a b => 1/10000 ≤ |a.price - b.price|) := by
    refine List.pairwise_cons.mpr ⟨?_, List.pairwise_singleton _ _⟩
    intro b hb
    rcases List.mem_cons.mp hb with rfl | hb2
    · show (1:ℚ)/10000 ≤ |(1:ℚ)/2 - 3/5|
      rw [habs]
      norm_num
    · simp at hb2
  have hmem : ({ price := (3:ℚ)/5, size := 7 } : OrderBookLevel) ∈
      ([{ price := (1:ℚ)/2, size := 5 }, { price := 3/5, size := 7 }] :
        List OrderBookLevel) := by simp
  refine ⟨?_, ?_, ?_⟩
  · rw [(c9_book_level_upsert _ (3/5) 0 hpw).2.2.1 _ hmem rfl]
    rw [List.filter_cons_of_pos (by simp only [decide_eq_true_eq]; norm_num),
      List.filter_cons_of_neg (by simp), List.filter_nil]
  · rw [(c9_book_level_upsert _ (3/5) 9 hpw).2.2.2.1 (by norm_num) _ hmem rfl]
    rw [List.map_cons, List.map_cons, List.map_nil, if_neg (by norm_num),
      if_pos rfl]
  · rw [(c9_book_level_upsert _ (7/10) 2 hpw).2.1 ?_, if_pos (by norm_num)]
    · rfl
    · intro l hl
      rcases List.mem_cons.mp hl with rfl | hl2
      · show ¬ |(1:ℚ)/2 - 7/10| < 1/10000
        rw [show (1:ℚ)/2 - 7/10 = -(1/5) by norm_num, abs_neg,
          abs_of_pos (by norm_num)]
        norm_num
      · rcases List.mem_cons.mp hl2 with rfl | hl3
        · show ¬ |(3:ℚ)/5 - 7/10| < 1/10000
          rw [show (3:ℚ)/5 - 7/10 = -(1/10) by norm_num, abs_neg,
            abs_of_pos (by norm_num)]
          norm_num
        · simp at hl3

/-- A bad leg (missing book, undefined ask, non-positive size) anywhere in
the token list aborts the categorical gathering loop. -/
theorem gather_outcomes_none_of_bad (ob : String → Option OrderBook) :
    ∀ (tokens : List Token), (∃ t ∈ tokens, leg_bad ob t = true) →
      gather_outcomes ob tokens = none := by
  intro tokens
  induction tokens with
  | nil =>
    rintro ⟨t, ht, _⟩
    simp at ht
  | cons token rest ih =>
    rintro ⟨t, ht, hbad⟩
    cases hob : ob token.token_id with
    | none => simp [gather_outcomes, hob]
    | some book =>
      cases hba : book.best_ask with
      | none => simp [gather_outcomes, hob, hba]
      | some ask =>
        by_cases hsz : get_size_at_price book.asks ask ≤ 0
        · simp [gather_outcomes, hob, hba, hsz]
        · have hrest : ∃ t2 ∈ rest, leg_bad ob t2 = true := by
            rcases List.mem_cons.mp ht with rfl | h2
            · exfalso
              simp only [leg_bad, hob, hba, decide_eq_true_eq] at hbad
              exact hsz hbad
            · exact ⟨t, h2, hbad⟩
          simp [gather_outcomes, hob, hba, hsz, ih hrest]

/-- C7: the categorical `check_opportunity` yields no opportunity when the
market is not categorical, has too many outcomes, any leg is missing or
unsized, or the best asks already sum to 1.0 or more — and in all of these
cases (the quick reject included) the cost model is invoked zero times, for
any cost function. -/
theorem c7_categorical_quick_reject (d : CategoricalArbitrageDetector)
    (costFn : List ℚ → ℚ → Bool → ArbitrageAnalysis) (market : Market)
    (order_books : String → Option OrderBook)
    (h : market.is_categorical = false ∨
      market.tokens.length > d.max_outcomes ∨
      (∃ t ∈ market.tokens, leg_bad order_books t = true) ∨
      (∃ outcomes total, gather_outcomes order_books market.tokens =
        some (outcomes, total) ∧ 1 ≤ total)) :
    d.check_opportunity_core costFn market order_books = (none, 0) ∧
    d.check_opportunity market order_books = none := by
  have hcore : ∀ cf : List ℚ → ℚ → Bool → ArbitrageAnalysis,
      d.check_opportunity_core cf market order_books = (none, 0) := by
    intro cf
    rcases h with hc | hc | hc | hc
    · simp [CategoricalArbitrageDetector.check_opportunity_core, hc]
    · by_cases hcat : market.is_categorical
      · simp [CategoricalArbitrageDetector.check_opportunity_core, hcat, hc]
      · simp [CategoricalArbitrageDetector.check_opportunity_core, hcat]
    · have hg := gather_outcomes_none_of_bad order_books market.tokens hc
      by_cases hcat : market.is_categorical
      · by_cases hlen : market.tokens.length > d.max_outcomes
        · simp [CategoricalArbitrageDetector.check_opportunity_core, hcat, hlen]
        · simp [CategoricalArbitrageDetector.check_opportunity_core, hcat, hlen, hg]
      · simp [CategoricalArbitrageDetector.check_opportunity_core, hcat]
    · obtain ⟨os, total, hg, hge⟩ := hc
      by_cases hcat : market.is_categorical
      · by_cases hlen : market.tokens.length > d.max_outcomes
        · simp [CategoricalArbitrageDetector.check_opportunity_core, hcat, hlen]
        · simp [CategoricalArbitrageDetector.check_opportunity_core, hcat, hlen,
            hg, hge]
      · simp [CategoricalArbitrageDetector.check_opportunity_core, hcat]
  refine ⟨hcore costFn, ?_⟩
  rw [CategoricalArbitrageDetector.check_opportunity, hcore _]

/-- C7 witness: the default categorical detector rejects the three-outcome
market whose asks sum to 1.2 without invoking the cost model, and rejects a
non-categorical market outright. -/
theorem c7_categorical_quick_reject_witness :
    sampleCatDetector.check_opportunity_core
      (sampleCatDetector.cost_calculator.calculate_categorical_arb)
      sampleCatMarket sampleExpensiveBooks = (none, 0) ∧
    sampleCatDetector.check_opportunity sampleCatMarket sampleExpensiveBooks = none ∧
    sampleCatDetector.check_opportunity sampleBinaryMarket (fun _ => none) = none := by
  have hg : gather_outcomes sampleExpensiveBooks sampleCatMarket.tokens =
      some ([{ token := { token_id := "T-A", outcome := "A" }, ask_price := 2/5,
               ask_size := 10, order_book := sampleExpensiveBook "T-A" },
             { token := { token_id := "T-B", outcome := "B" }, ask_price := 2/5,
               ask_size := 10, order_book := sampleExpensiveBook "T-B" },
             { token := { token_id := "T-C", outcome := "C" }, ask_price := 2/5,
               ask_size := 10, order_book := sampleExpensiveBook "T-C" }],
            2/5 + (2/5 + (2/5 + 0))) := by
    have hA : sampleExpensiveBooks "T-A" = some (sampleExpensiveBook "T-A") := rfl
    have hB : sampleExpensiveBooks "T-B" = some (sampleExpensiveBook "T-B") := rfl
    have hC : sampleExpensiveBooks "T-C" = some (sampleExpensiveBook "T-C") := rfl
    norm_num [gather_outcomes, sampleCatMarket, hA, hB, hC, sampleExpensiveBook,
      OrderBook.best_ask, get_size_at_price]
  have h := c7_categorical_quick_reject sampleCatDetector
    (sampleCatDetector.cost_calculator.calculate_categorical_arb)
    sampleCatMarket sampleExpensiveBooks
    (Or.inr (Or.inr (Or.inr ⟨_, _, hg, by norm_num⟩)))
  have h2 := c7_categorical_quick_reject sampleCatDetector
    (sampleCatDetector.cost_calculator.calculate_categorical_arb)
    sampleBinaryMarket (fun _ => none)
    (Or.inl (by decide))
  exact ⟨h.1, h.2, h2.2⟩

/-- The limiting-outcome fold from a finite seed: either no element beats the
seed (the accumulator is unchanged), or it ends at a strict minimiser of the
notional among the elements, below the seed. -/
theorem limit_fold_go_spec :
    ∀ (l : List OutcomeData) (m : ℚ) (nm : String),
      (l.foldl limit_step (some m, nm) = (some m, nm) ∧
        ∀ o ∈ l, m ≤ o.ask_size * o.ask_price) ∨
      (∃ o ∈ l, l.foldl limit_step (some m, nm) =
          (some (o.ask_size * o.ask_price), o.token.outcome) ∧
        o.ask_size * o.ask_price < m ∧
        ∀ o2 ∈ l, o.ask_size * o.ask_price ≤ o2.ask_size * o2.ask_price) := by
  intro l
  induction l with
  | nil => intro m nm; exact Or.inl ⟨rfl, by simp⟩
  | cons o rest ih =>
    intro m nm
    by_cases hlt : o.ask_size * o.ask_price < m
    · have hstep : limit_step (some m, nm) o =
          (some (o.ask_size * o.ask_price), o.token.outcome) := by
        simp [limit_step, hlt]
      rw [List.foldl_cons, hstep]
      rcases ih (o.ask_size * o.ask_price) o.token.outcome with ⟨heq, hall⟩ |
        ⟨o2, ho2, heq, hlt2, hall2⟩
      · refine Or.inr ⟨o, List.mem_cons_self o rest, heq, hlt, ?_⟩
        intro o3 ho3
        rcases List.mem_cons.mp ho3 with rfl | h3
        · exact le_refl _
        · exact hall o3 h3
      · refine Or.inr ⟨o2, List.mem_cons_of_mem o ho2, heq,
          lt_trans hlt2 hlt, ?_⟩
        intro o3 ho3
        rcases List.mem_cons.mp ho3 with rfl | h3
        · exact le_of_lt hlt2
        · exact hall2 o3 h3
    · have hstep : limit_step (some m, nm) o = (some m, nm) := by
        simp [limit_step, hlt]
      rw [List.foldl_cons, hstep]
      rcases ih m nm with ⟨heq, hall⟩ | ⟨o2, ho2, heq, hlt2, hall2⟩
      · refine Or.inl ⟨heq, ?_⟩
        intro o3 ho3
        rcases List.mem_cons.mp ho3 with rfl | h3
        · exact not_lt.mp hlt
        · exact hall o3 h3
      · refine Or.inr ⟨o2, List.mem_cons_of_mem o ho2, heq, hlt2, ?_⟩
        intro o3 ho3
        rcases List.mem_cons.mp ho3 with rfl | h3
        · exact le_trans (le_of_lt hlt2) (not_lt.mp hlt)
        · exact hall2 o3 h3

/-- On a nonempty outcome list, the limiting fold picks an outcome achieving
the minimum notional `ask_size * ask_price`. -/
theorem limiting_fold_spec (outcomes : List OutcomeData) (h : outcomes ≠ []) :
    ∃ o ∈ outcomes, limiting_fold outcomes =
        (some (o.ask_size * o.ask_price), o.token.outcome) ∧
      ∀ o2 ∈ outcomes, o.ask_size * o.ask_price ≤ o2.ask_size * o2.ask_price := by
  rcases hl : outcomes with _ | ⟨o, rest⟩
  · exact absurd hl h
  · have hstep : limit_step (none, "") o =
        (some (o.ask_size * o.ask_price), o.token.outcome) := by
      simp [limit_step]
    rw [limiting_fold, List.foldl_cons, hstep]
    rcases limit_fold_go_spec rest (o.ask_size * o.ask_price) o.token.outcome with
      ⟨heq, hall⟩ | ⟨o2, ho2, heq, hlt2, hall2⟩
    · refine ⟨o, List.mem_cons_self o rest, heq, ?_⟩
      intro o3 ho3
      rcases List.mem_cons.mp ho3 with rfl | h3
      · exact le_refl _
      · exact hall o3 h3
    · refine ⟨o2, List.mem_cons_of_mem o ho2, heq, ?_⟩
      intro o3 ho3
      rcases List.mem_cons.mp ho3 with rfl | h3
      · exact le_of_lt hlt2
      · exact hall2 o3 h3

/-- The gathering loop yields one outcome per token. -/
theorem gather_outcomes_length (ob : String → Option OrderBook) :
    ∀ (tokens : List Token) (os : List OutcomeData) (total : ℚ),
      gather_outcomes ob tokens = some (os, total) → os.length = tokens.length := by
  intro tokens
  induction tokens with
  | nil =>
    intro os total h
    rw [gather_outcomes] at h
    obtain ⟨rfl, rfl⟩ : os = [] ∧ total = 0 := by
      constructor <;> cases h <;> rfl
    rfl
  | cons token rest ih =>
    intro os total h
    rw [gather_outcomes] at h
    cases hob : ob token.token_id with
    | none => simp only [hob] at h; exact Option.noConfusion h
    | some book =>
      simp only [hob] at h
      cases hba : book.best_ask with
      | none => simp only [hba] at h; exact Option.noConfusion h
      | some ask =>
        simp only [hba] at h
        by_cases hsz : get_size_at_price book.asks ask ≤ 0
        · simp only [if_pos hsz] at h
          exact Option.noConfusion h
        · simp only [if_neg hsz] at h
          cases hg : gather_outcomes ob rest with
          | none => simp only [hg] at h; exact Option.noConfusion h
          | some p =>
            obtain ⟨os2, total2⟩ := p
            simp only [hg, Option.some_inj, Prod.mk.injEq] at h
            obtain ⟨h1, _⟩ := h
            rw [← h1, List.length_cons, ih os2 total2 hg, List.length_cons]

/-- Any opportunity the binary detector emits respects the size bounds. -/
theorem binary_check_opportunity_bounds (d : BinaryArbitrageDetector)
    (market : Market) (yes_book no_book : Option OrderBook)
    (opp : BinaryArbitrageOpportunity)
    (h : d.check_opportunity market yes_book no_book = some opp) :
    d.min_size ≤ opp.max_size ∧ opp.max_size ≤ d.max_size ∧
    opp.max_size ≤ opp.yes_ask_size * opp.yes_ask ∧
    opp.max_size ≤ opp.no_ask_size * opp.no_ask := by
  simp only [BinaryArbitrageDetector.check_opportunity] at h
  split at h
  · exact Option.noConfusion h
  · split at h
    · split at h
      · split at h
        · exact Option.noConfusion h
        · split at h
          · exact Option.noConfusion h
          · split at h
            · exact Option.noConfusion h
            · split at h
              · obtain rfl := Option.some.inj h
                rename_i hms hth x1 x2 yt nt hy hn
                exact ⟨not_lt.mp hms, min_le_right _ _,
                  le_trans (min_le_left _ _) (min_le_left _ _),
                  le_trans (min_le_left _ _) (min_le_right _ _)⟩
              · exact Option.noConfusion h
      · exact Option.noConfusion h
    · exact Option.noConfusion h

/-- Any opportunity the categorical detector emits respects the size bounds
and records a limiting outcome achieving the minimum notional. -/
theorem categorical_check_opportunity_bounds (d : CategoricalArbitrageDetector)
    (market : Market) (order_books : String → Option OrderBook)
    (opp : CategoricalArbitrageOpportunity)
    (h : d.check_opportunity market order_books = some opp) :
    d.min_size ≤ opp.max_size ∧ opp.max_size ≤ d.max_size ∧
    (∀ o ∈ opp.outcomes, opp.max_size ≤ o.ask_size * o.ask_price) ∧
    ∃ o ∈ opp.outcomes, o.token.outcome = opp.limiting_outcome ∧
      ∀ o2 ∈ opp.outcomes, o.ask_size * o.ask_price ≤ o2.ask_size * o2.ask_price := by
  simp only [CategoricalArbitrageDetector.check_opportunity,
    CategoricalArbitrageDetector.check_opportunity_core] at h
  split at h
  · exact Option.noConfusion h
  · rename_i hcat
    split at h
    · exact Option.noConfusion h
    · rename_i hlen
      split at h
      · exact Option.noConfusion h
      · rename_i x1 os total hg
        split at h
        · exact Option.noConfusion h
        · rename_i htot
          have hcat2 : market.is_categorical = true := not_not.mp hcat
          have hlen3 : market.tokens.length > 2 := by
            rw [Market.is_categorical, decide_eq_true_eq] at hcat2
            exact hcat2
          have hoslen := gather_outcomes_length order_books market.tokens os total hg
          have hosne : os ≠ [] := by
            intro he
            rw [he] at hoslen
            simp at hoslen
            omega
          obtain ⟨o, ho, heqf, hall⟩ := limiting_fold_spec os hosne
          split at h
          · exact Option.noConfusion h
          · rename_i hms
            split at h
            · exact Option.noConfusion h
            · rename_i hth
              split at h
              · rename_i hlim
                rw [heqf] at hlim
                exact Option.noConfusion hlim
              · rename_i x2 ask hlim
                obtain rfl := Option.some.inj h
                rw [heqf] at hlim
                obtain rfl : ask = o.ask_size * o.ask_price := (Option.some.inj hlim).symm
                rw [heqf] at hms
                refine ⟨not_lt.mp hms, min_le_right _ _, ?_, ?_⟩
                · intro o2 ho2
                  exact le_trans (min_le_left _ _) (hall o2 ho2)
                · refine ⟨o, ho, ?_, hall⟩
                  show o.token.outcome = (limiting_fold os).2
                  rw [heqf]

/-- C5: every opportunity either detector emits has `max_size` at most the
configured cap, at most every leg's notional (so at most the thinnest leg's),
and at least the configured `min_size`; the categorical detector additionally
records as `limiting_outcome` an outcome achieving the minimum notional. -/
theorem c5_max_size_bounds (dB : BinaryArbitrageDetector)
    (marketB : Market) (yes_book no_book : Option OrderBook)
    (oppB : BinaryArbitrageOpportunity)
    (dC : CategoricalArbitrageDetector) (marketC : Market)
    (order_books : String → Option OrderBook)
    (oppC : CategoricalArbitrageOpportunity) :
    (dB.check_opportunity marketB yes_book no_book = some oppB →
      dB.min_size ≤ oppB.max_size ∧ oppB.max_size ≤ dB.max_size ∧
      oppB.max_size ≤ oppB.yes_ask_size * oppB.yes_ask ∧
      oppB.max_size ≤ oppB.no_ask_size * oppB.no_ask) ∧
    (dC.check_opportunity marketC order_books = some oppC →
      dC.min_size ≤ oppC.max_size ∧ oppC.max_size ≤ dC.max_size ∧
      (∀ o ∈ oppC.outcomes, oppC.max_size ≤ o.ask_size * o.ask_price) ∧
      ∃ o ∈ oppC.outcomes, o.token.outcome = oppC.limiting_outcome ∧
        ∀ o2 ∈ oppC.outcomes, o.ask_size * o.ask_price ≤ o2.ask_size * o2.ask_price) :=
  ⟨fun h => binary_check_opportunity_bounds dB marketB yes_book no_book oppB h,
   fun h => categorical_check_opportunity_bounds dC marketC order_books oppC h⟩

/-- The sample binary market evaluates to the sample opportunity. -/
theorem sample_binary_check :
    sampleBinaryDetector.check_opportunity sampleBinaryMarket
      (some sampleYesBook) (some sampleNoBook) = some sampleBinaryOpp := by
  have hyes : sampleBinaryMarket.get_yes_token =
      some { token_id := "T-YES", outcome := "Yes" } := by decide
  have hno : sampleBinaryMarket.get_no_token =
      some { token_id := "T-NO", outcome := "No" } := by decide
  have hbin : sampleBinaryMarket.is_binary = true := by decide
  norm_num [BinaryArbitrageDetector.check_opportunity, sampleBinaryDetector,
    sampleYesBook, sampleNoBook, OrderBook.best_ask, get_size_at_price,
    hbin, hyes, hno, sampleBinaryOpp,
    CostCalculator.calculate_binary_arb, CostCalculator.default, min_def]

/-- The sample categorical market evaluates to the sample opportunity. -/
theorem sample_cat_check :
    sampleCatDetector.check_opportunity sampleCatMarket sampleCatBooks =
      some sampleCatOpp := by
  have hA : sampleCatBooks "T-A" =
      some { asset_id := "T-A", market_id := "M2", asks := [{ price := 3/10, size := 1000 }] } := rfl
  have hB : sampleCatBooks "T-B" =
      some { asset_id := "T-B", market_id := "M2", asks := [{ price := 3/10, size := 1000 }] } := rfl
  have hC : sampleCatBooks "T-C" =
      some { asset_id := "T-C", market_id := "M2", asks := [{ price := 1/4, size := 100 }] } := rfl
  have hcat : sampleCatMarket.is_categorical = true := by decide
  have hlen : sampleCatMarket.tokens.length = 3 := by decide
  have hg : gather_outcomes sampleCatBooks sampleCatMarket.tokens =
      some ([{ token := { token_id := "T-A", outcome := "A" }, ask_price := 3/10,
               ask_size := 1000,
               order_book := { asset_id := "T-A", market_id := "M2"
                               asks := [{ price := 3/10, size := 1000 }] } },
             { token := { token_id := "T-B", outcome := "B" }, ask_price := 3/10,
               ask_size := 1000,
               order_book := { asset_id := "T-B", market_id := "M2"
                               asks := [{ price := 3/10, size := 1000 }] } },
             { token := { token_id := "T-C", outcome := "C" }, ask_price := 1/4,
               ask_size := 100,
               order_book := { asset_id := "T-C", market_id := "M2"
                               asks := [{ price := 1/4, size := 100 }] } }],
            3/10 + (3/10 + (1/4 + 0))) := by
    norm_num [gather_outcomes, sampleCatMarket, hA, hB, hC, OrderBook.best_ask,
      get_size_at_price]
  have hfold : limiting_fold
      [{ token := { token_id := "T-A", outcome := "A" }, ask_price := 3/10,
         ask_size := 1000,
         order_book := { asset_id := "T-A", market_id := "M2"
                         asks := [{ price := 3/10, size := 1000 }] } },
       { token := { token_id := "T-B", outcome := "B" }, ask_price := 3/10,
         ask_size := 1000,
         order_book := { asset_id := "T-B", market_id := "M2"
                         asks := [{ price := 3/10, size := 1000 }] } },
       { token := { token_id := "T-C", outcome := "C" }, ask_price := 1/4,
         ask_size := 100,
         order_book := { asset_id := "T-C", market_id := "M2"
                         asks := [{ price := 1/4, size := 100 }] } }] =
      (some 25, "C") := by
    norm_num [limiting_fold, limit_step]
  norm_num [CategoricalArbitrageDetector.check_opportunity,
    CategoricalArbitrageDetector.check_opportunity_core, sampleCatDetector,
    hcat, hlen, hg, hfold, sampleCatOpp,
    CostCalculator.calculate_categorical_arb, CostCalculator.default, min_def]

/-- C5 witness: the sample binary opportunity (maxSize 40 within [1, 100] and
both 40-and-50 USDC legs) and the sample categorical opportunity (maxSize 25
within [5, 50], limited by outcome C's 25 USDC). -/
theorem c5_max_size_bounds_witness :
    (sampleBinaryDetector.min_size ≤ sampleBinaryOpp.max_size ∧
      sampleBinaryOpp.max_size ≤ sampleBinaryDetector.max_size ∧
      sampleBinaryOpp.max_size ≤ sampleBinaryOpp.yes_ask_size * sampleBinaryOpp.yes_ask ∧
      sampleBinaryOpp.max_size ≤ sampleBinaryOpp.no_ask_size * sampleBinaryOpp.no_ask) ∧
    (sampleCatDetector.min_size ≤ sampleCatOpp.max_size ∧
      sampleCatOpp.max_size ≤ sampleCatDetector.max_size ∧
      (∀ o ∈ sampleCatOpp.outcomes, sampleCatOpp.max_size ≤ o.ask_size * o.ask_price) ∧
      ∃ o ∈ sampleCatOpp.outcomes, o.token.outcome = sampleCatOpp.limiting_outcome ∧
        ∀ o2 ∈ sampleCatOpp.outcomes,
          o.ask_size * o.ask_price ≤ o2.ask_size * o2.ask_price) :=
  ⟨(c5_max_size_bounds sampleBinaryDetector sampleBinaryMarket
      (some sampleYesBook) (some sampleNoBook) sampleBinaryOpp sampleCatDetector
      sampleCatMarket sampleCatBooks sampleCatOpp).1 sample_binary_check,
   (c5_max_size_bounds sampleBinaryDetector sampleBinaryMarket
      (some sampleYesBook) (some sampleNoBook) sampleBinaryOpp sampleCatDetector
      sampleCatMarket sampleCatBooks sampleCatOpp).2 sample_cat_check⟩

end PolyBot
